import Mathlib

/-
Verification of the terminal emulator core (control-sequence decoder, screen
buffer and glyph atlas) of the rt repository.

The screen-buffer and atlas logic is embedded from src/terminal.rs and
src/atlas.rs.  The byte-level escape-code state machine (the external
anstyle-parse crate), the bin packer (guillotiere) and the rasterizer
(fontdue) are external dependencies; they are modelled from the spec where a
claim needs them, as marked on the individual definitions.
-/

namespace RT

/-- A screen cell, from src/terminal.rs Cell: character, optional 8-color
foreground/background, bold and underline flags. -/
structure Cell where
  char : Char
  fg : Option Nat
  bg : Option Nat
  bold : Bool
  underline : Bool
deriving DecidableEq

/-- Rust Cell::default(): NUL character, no colors, no attributes. -/
def Cell.default : Cell := ⟨Char.ofNat 0, none, none, false, false⟩

/-- Cell { char: c, ..Default::default() } as built by insert_char. -/
def Cell.mkChar (c : Char) : Cell := ⟨c, none, none, false, false⟩

/-- The screen buffer, from src/terminal.rs TextBuffer: scrollback rows, the
viewport dimensions, the viewport top row index and the cursor (relative to
the viewport). -/
structure TextBuffer where
  rows : List (List Cell)
  width : Nat
  height : Nat
  viewport_top : Nat
  cursor_x : Nat
  cursor_y : Nat
deriving DecidableEq

/-- TextBuffer::new. -/
def TextBuffer.new (width height : Nat) : TextBuffer :=
  ⟨[], width, height, 0, 0, 0⟩

/-- In-place update through rows.get_mut(i): apply f to the element at index
i when it exists, otherwise leave the list unchanged. -/
def listUpdate {α : Type} (l : List α) (i : Nat) (f : α → α) : List α :=
  match l[i]? with
  | some a => l.set i (f a)
  | none => l

/-- TextBuffer::scroll_up: move the viewport up by lines, clamped at 0. -/
def TextBuffer.scroll_up (b : TextBuffer) (lines : Nat) : TextBuffer :=
  { b with viewport_top := if lines ≤ b.viewport_top then b.viewport_top - lines else 0 }

/-- TextBuffer::scroll_down: move the viewport down by lines; if that would
pass the last row, clamp to rows.len().saturating_sub(1). -/
def TextBuffer.scroll_down (b : TextBuffer) (lines : Nat) : TextBuffer :=
  { b with viewport_top :=
      if b.viewport_top + lines < b.rows.length then b.viewport_top + lines
      else b.rows.length - 1 }

/-- The `if cursor_y >= height { scroll_down(1); cursor_y = height - 1 }`
block shared by insert_char and newline. -/
def TextBuffer.clamp_y (b : TextBuffer) : TextBuffer :=
  if b.height ≤ b.cursor_y then
    { b.scroll_down 1 with cursor_y := b.height - 1 }
  else b

/-- insert_char step: `if rows.len() <= viewport_top + cursor_y` push one
empty row. -/
def TextBuffer.ensure_row (b : TextBuffer) : TextBuffer :=
  if b.rows.length ≤ b.viewport_top + b.cursor_y then
    { b with rows := b.rows ++ [[]] }
  else b

/-- insert_char step: write the character through rows.get_mut: overwrite in
place when cursor_x is inside the row, push at the row end otherwise, do
nothing when the row index is out of range. -/
def TextBuffer.write_cell (b : TextBuffer) (c : Char) : TextBuffer :=
  match b.rows[b.viewport_top + b.cursor_y]? with
  | some row =>
      if b.cursor_x < row.length then
        { b with rows := b.rows.set (b.viewport_top + b.cursor_y) (row.set b.cursor_x (Cell.mkChar c)) }
      else
        { b with rows := b.rows.set (b.viewport_top + b.cursor_y) (row ++ [Cell.mkChar c]) }
  | none => b

/-- insert_char step: cursor_x += 1 then wrap to the next line (scrolling at
the bottom) when cursor_x >= width. -/
def TextBuffer.advance_cursor (b : TextBuffer) : TextBuffer :=
  if b.width ≤ b.cursor_x + 1 then
    TextBuffer.clamp_y { b with cursor_x := 0, cursor_y := b.cursor_y + 1 }
  else { b with cursor_x := b.cursor_x + 1 }

/-- TextBuffer::insert_char. -/
def TextBuffer.insert_char (b : TextBuffer) (c : Char) : TextBuffer :=
  TextBuffer.advance_cursor (TextBuffer.write_cell (TextBuffer.ensure_row (TextBuffer.clamp_y b)) c)

/-- TextBuffer::newline. -/
def TextBuffer.newline (b : TextBuffer) : TextBuffer :=
  TextBuffer.clamp_y { b with cursor_x := 0, cursor_y := b.cursor_y + 1 }

/-- TextBuffer::move_cursor: clamp x to the last column, set y and scroll the
viewport down when y is below the last viewport line. -/
def TextBuffer.move_cursor (b : TextBuffer) (x y : Nat) : TextBuffer :=
  if b.height ≤ y then
    { ({ b with cursor_x := min x (b.width - 1), cursor_y := y }).scroll_down (y - b.height + 1) with cursor_y := b.height - 1 }
  else { b with cursor_x := min x (b.width - 1), cursor_y := y }

/-- Attribute reset applied per cell by reset_attributes. -/
def Cell.resetAttrs (c : Cell) : Cell :=
  { c with bold := false, underline := false, fg := none, bg := none }

/-- TextBuffer::reset_attributes: reset the attributes of every cell of the
current row (characters are kept). -/
def TextBuffer.reset_attributes (b : TextBuffer) : TextBuffer :=
  { b with rows := listUpdate b.rows (b.viewport_top + b.cursor_y) (fun row => row.map Cell.resetAttrs) }

/-- TextBuffer::set_bold: set the bold flag of the cell under the cursor when
it exists. -/
def TextBuffer.set_bold (b : TextBuffer) (v : Bool) : TextBuffer :=
  let f := fun row => listUpdate row b.cursor_x (fun c => { c with bold := v })
  { b with rows := listUpdate b.rows (b.viewport_top + b.cursor_y) f }

/-- TextBuffer::set_underline. -/
def TextBuffer.set_underline (b : TextBuffer) (v : Bool) : TextBuffer :=
  let f := fun row => listUpdate row b.cursor_x (fun c => { c with underline := v })
  { b with rows := listUpdate b.rows (b.viewport_top + b.cursor_y) f }

/-- TextBuffer::set_foreground_color. -/
def TextBuffer.set_foreground_color (b : TextBuffer) (color : Nat) : TextBuffer :=
  let f := fun row => listUpdate row b.cursor_x (fun c => { c with fg := some color })
  { b with rows := listUpdate b.rows (b.viewport_top + b.cursor_y) f }

/-- TextBuffer::set_background_color. -/
def TextBuffer.set_background_color (b : TextBuffer) (color : Nat) : TextBuffer :=
  let f := fun row => listUpdate row b.cursor_x (fun c => { c with bg := some color })
  { b with rows := listUpdate b.rows (b.viewport_top + b.cursor_y) f }

/-- iter_mut().skip(n) with every visited cell reset: cells at index >= n
become Cell.default. -/
def eraseFrom : Nat → List Cell → List Cell
  | _, [] => []
  | 0, _ :: rest => Cell.default :: eraseFrom 0 rest
  | n + 1, c :: rest => c :: eraseFrom n rest

/-- iter_mut().take(n) with every visited cell reset: cells at index < n
become Cell.default. -/
def eraseTo : Nat → List Cell → List Cell
  | _, [] => []
  | 0, rest => rest
  | n + 1, _ :: rest => Cell.default :: eraseTo n rest

/-- rows.iter_mut().skip(n) applying f to every visited row. -/
def mapSkip (f : List Cell → List Cell) : Nat → List (List Cell) → List (List Cell)
  | _, [] => []
  | 0, r :: rest => f r :: mapSkip f 0 rest
  | n + 1, r :: rest => r :: mapSkip f n rest

/-- rows.iter_mut().take(n) applying f to every visited row. -/
def mapTake (f : List Cell → List Cell) : Nat → List (List Cell) → List (List Cell)
  | _, [] => []
  | 0, rest => rest
  | n + 1, r :: rest => f r :: mapTake f n rest

/-- TextBuffer::erase_screen_from_cursor: in every row from the cursor row on,
reset the cells from column cursor_x on. -/
def TextBuffer.erase_screen_from_cursor (b : TextBuffer) : TextBuffer :=
  { b with rows := mapSkip (eraseFrom b.cursor_x) (b.viewport_top + b.cursor_y) b.rows }

/-- TextBuffer::erase_screen_to_cursor: in every row up to the cursor row,
reset the cells up to column cursor_x. -/
def TextBuffer.erase_screen_to_cursor (b : TextBuffer) : TextBuffer :=
  { b with rows := mapTake (eraseTo (b.cursor_x + 1)) (b.viewport_top + b.cursor_y + 1) b.rows }

/-- TextBuffer::erase_screen: reset every cell of every row. -/
def TextBuffer.erase_screen (b : TextBuffer) : TextBuffer :=
  { b with rows := b.rows.map (fun row => row.map (fun _ => Cell.default)) }

/-- The CSI P loop: count times, remove the cell at cursor_x when it exists. -/
def deleteN : Nat → Nat → List Cell → List Cell
  | 0, _, row => row
  | n + 1, x, row => if x < row.length then deleteN n x (row.eraseIdx x) else row

/-- params.iter().next().map(|p| p.get(0).unwrap_or(&d)).unwrap_or(&d): the
first sub-parameter of the first parameter, with default d. -/
def firstParam (d : Nat) (params : List (List Nat)) : Nat :=
  match params.head? with
  | some p => p.headD d
  | none => d

/-- One iteration of the SGR (CSI m) parameter loop. -/
def TextBuffer.sgrApply (b : TextBuffer) (p : List Nat) : TextBuffer :=
  if p.headD 0 = 0 then b.reset_attributes
  else if p.headD 0 = 1 then b.set_bold true
  else if p.headD 0 = 4 then b.set_underline true
  else if 30 ≤ p.headD 0 ∧ p.headD 0 ≤ 37 then b.set_foreground_color (p.headD 0 - 30)
  else if 40 ≤ p.headD 0 ∧ p.headD 0 ≤ 47 then b.set_background_color (p.headD 0 - 40)
  else b

/-- Perform::execute for TextBuffer: newline, carriage return, bell,
backspace, tab, shift-in; anything else is logged and ignored. -/
def TextBuffer.execByte (b : TextBuffer) (byte : Nat) : TextBuffer :=
  match byte with
  | 10 => b.newline
  | 13 => { b with cursor_x := 0 }
  | 7 => b -- bell, logged only
  | 8 => { b with cursor_x := if 0 < b.cursor_x then b.cursor_x - 1 else b.cursor_x }
  | 9 =>
    if b.width ≤ b.cursor_x + (8 - b.cursor_x % 8) then
      ({ b with cursor_x := b.cursor_x + (8 - b.cursor_x % 8) }).newline
    else { b with cursor_x := b.cursor_x + (8 - b.cursor_x % 8) }
  | 15 => b -- shift-in, logged only
  | _ => b

/-- Perform::csi_dispatch for TextBuffer, by final byte (action). -/
def TextBuffer.csi_dispatch (b : TextBuffer) (params : List (List Nat)) (action : Nat) : TextBuffer :=
  match action with
  | 65 => -- A: cursor up
    { b with cursor_y := b.cursor_y - firstParam 1 params }
  | 66 => -- B: cursor down
    { b with cursor_y := min (b.cursor_y + firstParam 1 params) (b.height - 1) }
  | 67 => -- C: cursor right
    { b with cursor_x := min (b.cursor_x + firstParam 1 params) (b.width - 1) }
  | 68 => -- D: cursor left
    { b with cursor_x := b.cursor_x - firstParam 1 params }
  | 75 => -- K: erase in line
    { b with rows := listUpdate b.rows (b.viewport_top + b.cursor_y) (fun row =>
        match firstParam 0 params with
        | 0 => eraseFrom b.cursor_x row
        | 1 => eraseTo (b.cursor_x + 1) row
        | 2 => row.map (fun _ => Cell.default)
        | _ => row) }
  | 72 | 102 =>
    -- H / f: cursor position; in the source both the row and the column read
    -- call params.iter().next(), so both take the first parameter
    b.move_cursor (firstParam 1 params - 1) (firstParam 1 params - 1)
  | 114 => b -- r: scroll region, parsed but only logged
  | 109 => -- m: SGR attribute loop
    params.foldl TextBuffer.sgrApply b
  | 108 => b -- l: reset mode, logged only
  | 104 => b -- h: set mode, logged only
  | 74 => -- J: erase in display
    match firstParam 0 params with
    | 0 => b.erase_screen_from_cursor
    | 1 => b.erase_screen_to_cursor
    | 2 => b.erase_screen
    | _ => b
  | 80 => -- P: delete characters
    { b with rows := listUpdate b.rows (b.viewport_top + b.cursor_y) (deleteN (firstParam 1 params) b.cursor_x) }
  | _ => b

/-- A decoder dispatch event, one constructor per Perform method. -/
inductive Dispatch where
  | print (c : Char)
  | execByte (byte : Nat)
  | csi (params : List (List Nat)) (action : Nat)
  | escByte (byte : Nat)
  | osc
  | hook
  | putByte (byte : Nat)
  | unhook
deriving DecidableEq

/-- The Perform impl for TextBuffer: print inserts, execute handles control
bytes, csi dispatches by final byte; escape, OSC and DCS events are logged
and leave the buffer unchanged. -/
def TextBuffer.perform (b : TextBuffer) : Dispatch → TextBuffer
  | .print c => b.insert_char c
  | .execByte byte => b.execByte byte
  | .csi params action => b.csi_dispatch params action
  | .escByte _ => b
  | .osc => b
  | .hook => b
  | .putByte _ => b
  | .unhook => b

/-- Modelled from the spec: the byte-level state of the external anstyle-parse
decoder (src/terminal.rs uses Parser::<DefaultCharAccumulator>), which
classifies each byte as printable text, a control code, or part of an
escape/CSI/OSC sequence and retains its state between process calls. -/
inductive DecoderState where
  | ground
  | escape
  | csiSeq (ps : List (List Nat)) (num : Option Nat)
  | oscSeq
deriving DecidableEq

/-- Modelled from the spec: one byte step of the external decoder, returning
the next decoder state and the dispatch event it emits, if any. Multi-byte
UTF-8 accumulation is outside the claims and bytes above 0x7e are ignored in
ground state. -/
def DecoderState.advance (s : DecoderState) (b : Nat) : DecoderState × Option Dispatch :=
  match s with
  | .ground =>
      if b = 27 then (.escape, none)
      else if b < 32 then (.ground, some (.execByte b))
      else if b ≤ 126 then (.ground, some (.print (Char.ofNat b)))
      else (.ground, none)
  | .escape =>
      if b = 91 then (.csiSeq [] none, none)
      else if b = 93 then (.oscSeq, none)
      else (.ground, some (.escByte b))
  | .csiSeq ps num =>
      if 48 ≤ b ∧ b ≤ 57 then (.csiSeq ps (some (num.getD 0 * 10 + (b - 48))), none)
      else if b = 59 then (.csiSeq (ps ++ [[num.getD 0]]) none, none)
      else if 64 ≤ b ∧ b ≤ 126 then
        let final := if num = none ∧ ps = [] then [] else ps ++ [[num.getD 0]]
        (.ground, some (.csi final b))
      else (.csiSeq ps num, none)
  | .oscSeq =>
      if b = 7 then (.ground, some .osc)
      else if b = 27 then (.escape, none)
      else (.oscSeq, none)

/-- The Terminal from src/terminal.rs: a TextBuffer driven by the retained
byte decoder. -/
structure Terminal where
  buffer : TextBuffer
  parser : DecoderState
deriving DecidableEq

/-- Terminal::new. -/
def Terminal.new (width height : Nat) : Terminal :=
  ⟨TextBuffer.new width height, .ground⟩

/-- One iteration of the process_input loop: parser.advance(&mut buffer, byte). -/
def Terminal.advanceByte (t : Terminal) (b : Nat) : Terminal :=
  match DecoderState.advance t.parser b with
  | (p, some ev) => ⟨t.buffer.perform ev, p⟩
  | (p, none) => ⟨t.buffer, p⟩

/-- Terminal::process_input: feed every byte, in order, through the retained
parser. -/
def Terminal.process_input (t : Terminal) (input : List Nat) : Terminal :=
  input.foldl Terminal.advanceByte t

/-- Terminal::scroll_buffer: clamp the wheel delta to [-5, 5]; a positive
delta scrolls up, anything else scrolls down by the negated delta. The f32
delta is modelled as an Int (the clamp and `as usize` truncation are exact on
integral values). -/
def Terminal.scroll_buffer (t : Terminal) (delta : Int) : Terminal :=
  let d := max (-5) (min 5 delta)
  if 0 < d then { t with buffer := t.buffer.scroll_up d.toNat }
  else { t with buffer := t.buffer.scroll_down (-d).toNat }

end RT

namespace RT

/-- C1: processing the concatenation of two byte sequences in one call yields
exactly the same terminal state (buffer and parser state) as processing the
two sequences in consecutive calls; in particular an escape sequence may be
split at any byte boundary. -/
theorem process_input_append (t : Terminal) (a b : List Nat) :
    Terminal.process_input t (a ++ b) =
      Terminal.process_input (Terminal.process_input t a) b := by
  simp [Terminal.process_input, List.foldl_append]

/-- C6: evaluating the code at the failing input: on a fresh 80x24 buffer the
dispatch of CSI 3;5H (bytes ESC [ 3 ; 5 H) leaves the cursor at (2, 2): the
column is taken from the row parameter because both parameter reads take the
first parameter, while the claim requires cursor (4, 2). -/
theorem csiH_failing_input_eval :
    (Terminal.process_input (Terminal.new 80 24) [27, 91, 51, 59, 53, 72]).buffer.cursor_x = 2 ∧
    (Terminal.process_input (Terminal.new 80 24) [27, 91, 51, 59, 53, 72]).buffer.cursor_y = 2 := by
  decide

/-- C3 counterexample: on a fresh 10x5 buffer, CSI 5C moves the cursor to
(5, 0) with viewport_top 0; dispatching Print of the character A then leaves
row 0 with a single cell, so no cell at column 5 of row 0 holds it, while the
claim requires the cell at column 5 of row viewport_top+0 to hold it. -/
theorem print_at_cursor_counterexample :
    (Terminal.process_input (Terminal.new 10 5) [27, 91, 53, 67]).buffer.cursor_x = 5 ∧
    (Terminal.process_input (Terminal.new 10 5) [27, 91, 53, 67]).buffer.cursor_y = 0 ∧
    (Terminal.process_input (Terminal.new 10 5) [27, 91, 53, 67]).buffer.viewport_top = 0 ∧
    ((Terminal.process_input (Terminal.new 10 5) [27, 91, 53, 67, 65]).buffer.rows[0]?.getD []).length = 1 ∧
    ((Terminal.process_input (Terminal.new 10 5) [27, 91, 53, 67, 65]).buffer.rows[0]?.getD [])[5]? = none := by
  decide

/-- C5 counterexample: on a fresh 4x4 buffer, dispatching SGR 1 (bytes
ESC [ 1 m) followed by Print of X produces the cell holding X with its bold
flag false (Print always writes a default-attribute cell), while the claim
requires that cell to be bold. -/
theorem sgr_bold_print_counterexample :
    (Terminal.process_input (Terminal.new 4 4) [27, 91, 49, 109, 88]).buffer.rows =
      [[⟨Char.ofNat 88, none, none, false, false⟩]] := by
  decide

/-- C7 counterexample: on a fresh 4x4 buffer, print A B, newline, print C D,
then cursor up and cursor left put the cursor at (1, 0) with viewport_top 0;
dispatching CSI 0J (erase from cursor) leaves the cell at row 1, column 0
holding C, although in the claimed cursor-to-end region that cell lies after
the cursor and must be reset to the default cell. -/
theorem erase_display_counterexample :
    (Terminal.process_input (Terminal.new 4 4) [65, 66, 10, 67, 68, 27, 91, 65, 27, 91, 68]).buffer.cursor_x = 1 ∧
    (Terminal.process_input (Terminal.new 4 4) [65, 66, 10, 67, 68, 27, 91, 65, 27, 91, 68]).buffer.cursor_y = 0 ∧
    (Terminal.process_input (Terminal.new 4 4) [65, 66, 10, 67, 68, 27, 91, 65, 27, 91, 68]).buffer.viewport_top = 0 ∧
    ((Terminal.process_input (Terminal.new 4 4) [65, 66, 10, 67, 68, 27, 91, 65, 27, 91, 68, 27, 91, 48, 74]).buffer.rows[1]?.getD [])[0]? =
      some ⟨Char.ofNat 67, none, none, false, false⟩ ∧
    (⟨Char.ofNat 67, none, none, false, false⟩ : Cell) ≠ Cell.default := by
  decide

/-- C8 counterexample: after printing A, B, C on separate lines of a fresh
2x2 terminal, viewport_top is 1 and there are 3 scrollback rows; a scroll
call with delta +1 moves viewport_top to 0, while the claim requires a
positive delta to increase viewport_top (here to 1, the clamp at
scrollback length minus height). -/
theorem scroll_buffer_counterexample :
    (Terminal.process_input (Terminal.new 2 2) [65, 10, 66, 10, 67]).buffer.viewport_top = 1 ∧
    (Terminal.process_input (Terminal.new 2 2) [65, 10, 66, 10, 67]).buffer.rows.length = 3 ∧
    ((Terminal.process_input (Terminal.new 2 2) [65, 10, 66, 10, 67]).scroll_buffer 1).buffer.viewport_top = 0 := by
  decide

/-- C8 amended: a scroll call first clamps the delta to [-5, 5]; a positive
clamped delta moves viewport_top up (decreases it, saturating at 0), and any
other delta moves viewport_top down by the negated delta, clamped so that
viewport_top never exceeds rows.length - 1; rows and cursor are unchanged. -/
theorem scroll_buffer_spec (t : Terminal) (delta : Int) :
    (t.scroll_buffer delta).buffer.viewport_top =
      (if 0 < max (-5) (min 5 delta)
       then t.buffer.viewport_top - (max (-5) (min 5 delta)).toNat
       else min (t.buffer.viewport_top + (-(max (-5) (min 5 delta))).toNat)
                (t.buffer.rows.length - 1)) ∧
    (t.scroll_buffer delta).buffer.rows = t.buffer.rows ∧
    (t.scroll_buffer delta).buffer.cursor_x = t.buffer.cursor_x ∧
    (t.scroll_buffer delta).buffer.cursor_y = t.buffer.cursor_y := by
  obtain ⟨b, p⟩ := t
  simp only [Terminal.scroll_buffer, TextBuffer.scroll_up, TextBuffer.scroll_down]
  generalize (max (-5) (min 5 delta)) = d
  split_ifs <;> simp <;> omega

end RT

namespace RT

@[simp] lemma scroll_down_rows (b : TextBuffer) (n : Nat) : (b.scroll_down n).rows = b.rows := rfl

@[simp] lemma scroll_down_width (b : TextBuffer) (n : Nat) : (b.scroll_down n).width = b.width := rfl

@[simp] lemma scroll_down_height (b : TextBuffer) (n : Nat) : (b.scroll_down n).height = b.height := rfl

@[simp] lemma scroll_down_cursor_x (b : TextBuffer) (n : Nat) : (b.scroll_down n).cursor_x = b.cursor_x := rfl

@[simp] lemma scroll_down_cursor_y (b : TextBuffer) (n : Nat) : (b.scroll_down n).cursor_y = b.cursor_y := rfl

@[simp] lemma scroll_up_rows (b : TextBuffer) (n : Nat) : (b.scroll_up n).rows = b.rows := rfl

@[simp] lemma scroll_up_width (b : TextBuffer) (n : Nat) : (b.scroll_up n).width = b.width := rfl

@[simp] lemma scroll_up_height (b : TextBuffer) (n : Nat) : (b.scroll_up n).height = b.height := rfl

@[simp] lemma scroll_up_cursor_x (b : TextBuffer) (n : Nat) : (b.scroll_up n).cursor_x = b.cursor_x := rfl

@[simp] lemma scroll_up_cursor_y (b : TextBuffer) (n : Nat) : (b.scroll_up n).cursor_y = b.cursor_y := rfl

@[simp] lemma clamp_y_rows (b : TextBuffer) : b.clamp_y.rows = b.rows := by
  unfold TextBuffer.clamp_y; split <;> rfl

@[simp] lemma clamp_y_width (b : TextBuffer) : b.clamp_y.width = b.width := by
  unfold TextBuffer.clamp_y; split <;> rfl

@[simp] lemma clamp_y_height (b : TextBuffer) : b.clamp_y.height = b.height := by
  unfold TextBuffer.clamp_y; split <;> rfl

@[simp] lemma clamp_y_cursor_x (b : TextBuffer) : b.clamp_y.cursor_x = b.cursor_x := by
  unfold TextBuffer.clamp_y; split <;> rfl

lemma clamp_y_cursor_y_lt (b : TextBuffer) (hh : 1 ≤ b.height) : b.clamp_y.cursor_y < b.height := by
  unfold TextBuffer.clamp_y; split
  · show b.height - 1 < b.height; omega
  · omega

lemma clamp_y_of_lt (b : TextBuffer) (hy : b.cursor_y < b.height) : b.clamp_y = b := by
  unfold TextBuffer.clamp_y; rw [if_neg]; omega

@[simp] lemma ensure_row_width (b : TextBuffer) : b.ensure_row.width = b.width := by
  unfold TextBuffer.ensure_row; split <;> rfl

@[simp] lemma ensure_row_height (b : TextBuffer) : b.ensure_row.height = b.height := by
  unfold TextBuffer.ensure_row; split <;> rfl

@[simp] lemma ensure_row_cursor_x (b : TextBuffer) : b.ensure_row.cursor_x = b.cursor_x := by
  unfold TextBuffer.ensure_row; split <;> rfl

@[simp] lemma ensure_row_cursor_y (b : TextBuffer) : b.ensure_row.cursor_y = b.cursor_y := by
  unfold TextBuffer.ensure_row; split <;> rfl

@[simp] lemma ensure_row_viewport_top (b : TextBuffer) : b.ensure_row.viewport_top = b.viewport_top := by
  unfold TextBuffer.ensure_row; split <;> rfl

lemma ensure_row_rows (b : TextBuffer) :
    b.ensure_row.rows =
      (if b.rows.length ≤ b.viewport_top + b.cursor_y then b.rows ++ [[]] else b.rows) := by
  unfold TextBuffer.ensure_row; split <;> simp_all

@[simp] lemma write_cell_width (b : TextBuffer) (c : Char) : (b.write_cell c).width = b.width := by
  unfold TextBuffer.write_cell; split
  · split <;> rfl
  · rfl

@[simp] lemma write_cell_height (b : TextBuffer) (c : Char) : (b.write_cell c).height = b.height := by
  unfold TextBuffer.write_cell; split
  · split <;> rfl
  · rfl

@[simp] lemma write_cell_cursor_x (b : TextBuffer) (c : Char) : (b.write_cell c).cursor_x = b.cursor_x := by
  unfold TextBuffer.write_cell; split
  · split <;> rfl
  · rfl

@[simp] lemma write_cell_cursor_y (b : TextBuffer) (c : Char) : (b.write_cell c).cursor_y = b.cursor_y := by
  unfold TextBuffer.write_cell; split
  · split <;> rfl
  · rfl

@[simp] lemma write_cell_viewport_top (b : TextBuffer) (c : Char) : (b.write_cell c).viewport_top = b.viewport_top := by
  unfold TextBuffer.write_cell; split
  · split <;> rfl
  · rfl

@[simp] lemma write_cell_rows_length (b : TextBuffer) (c : Char) :
    (b.write_cell c).rows.length = b.rows.length := by
  unfold TextBuffer.write_cell; split
  · split <;> simp
  · rfl

@[simp] lemma advance_cursor_width (b : TextBuffer) : b.advance_cursor.width = b.width := by
  simp only [TextBuffer.advance_cursor]; split <;> simp

@[simp] lemma advance_cursor_height (b : TextBuffer) : b.advance_cursor.height = b.height := by
  simp only [TextBuffer.advance_cursor]; split <;> simp

@[simp] lemma advance_cursor_rows (b : TextBuffer) : b.advance_cursor.rows = b.rows := by
  simp only [TextBuffer.advance_cursor]; split <;> simp

lemma advance_cursor_x_lt (b : TextBuffer) (hw : 1 ≤ b.width) : b.advance_cursor.cursor_x < b.width := by
  simp only [TextBuffer.advance_cursor]; split
  · simpa using hw
  · simp; omega

lemma advance_cursor_y_lt (b : TextBuffer) (hh : 1 ≤ b.height) (hy : b.cursor_y < b.height) :
    b.advance_cursor.cursor_y < b.height := by
  simp only [TextBuffer.advance_cursor]; split
  · have := clamp_y_cursor_y_lt { b with cursor_x := 0, cursor_y := b.cursor_y + 1 } (by simpa using hh)
    simpa using this
  · simpa using hy

lemma insert_char_inv (b : TextBuffer) (c : Char) (hw : 1 ≤ b.width) (hh : 1 ≤ b.height) :
    (b.insert_char c).width = b.width ∧ (b.insert_char c).height = b.height ∧
    (b.insert_char c).cursor_x < b.width ∧ (b.insert_char c).cursor_y < b.height := by
  unfold TextBuffer.insert_char
  set b1 := (b.clamp_y.ensure_row.write_cell c) with hb1
  have hww : b1.width = b.width := by simp [hb1]
  have hhh : b1.height = b.height := by simp [hb1]
  have hy1 : b1.cursor_y < b1.height := by
    have := clamp_y_cursor_y_lt b hh
    simp [hb1]; simp at this ⊢; omega
  refine ⟨by simp [hww], by simp [hhh], ?_, ?_⟩
  · have := advance_cursor_x_lt b1 (by omega)
    omega
  · have := advance_cursor_y_lt b1 (by omega) hy1
    omega

end RT

namespace RT

@[simp] lemma listUpdate_length {α : Type} (l : List α) (i : Nat) (f : α → α) :
    (listUpdate l i f).length = l.length := by
  unfold listUpdate; split <;> simp

lemma listUpdate_getElem? {α : Type} (l : List α) (i : Nat) (f : α → α) (j : Nat) :
    (listUpdate l i f)[j]? = if i = j then (l[j]?).map f else l[j]? := by
  rcases h : l[i]? with _ | a
  · by_cases hij : i = j
    · subst hij; simp only [listUpdate, h]; simp [h]
    · simp only [listUpdate, h]; simp [hij]
  · have hi : i < l.length := by
      by_contra hc
      rw [List.getElem?_eq_none (by omega)] at h
      exact Option.noConfusion h
    by_cases hij : i = j
    · subst hij; simp only [listUpdate, h]
      simp [List.getElem?_set_eq_of_lt (f a) hi, h]
    · simp only [listUpdate, h]
      simp [hij, List.getElem?_set_ne hij]

@[simp] lemma move_cursor_width (b : TextBuffer) (x y : Nat) : (b.move_cursor x y).width = b.width := by
  unfold TextBuffer.move_cursor; split <;> rfl

@[simp] lemma move_cursor_height (b : TextBuffer) (x y : Nat) : (b.move_cursor x y).height = b.height := by
  unfold TextBuffer.move_cursor; split <;> rfl

@[simp] lemma move_cursor_rows (b : TextBuffer) (x y : Nat) : (b.move_cursor x y).rows = b.rows := by
  unfold TextBuffer.move_cursor; split <;> rfl

lemma move_cursor_x_lt (b : TextBuffer) (x y : Nat) (hw : 1 ≤ b.width) :
    (b.move_cursor x y).cursor_x < b.width := by
  unfold TextBuffer.move_cursor; split
  · show min x (b.width - 1) < b.width; omega
  · show min x (b.width - 1) < b.width; omega

lemma move_cursor_y_lt (b : TextBuffer) (x y : Nat) (hh : 1 ≤ b.height) :
    (b.move_cursor x y).cursor_y < b.height := by
  unfold TextBuffer.move_cursor; split
  · show b.height - 1 < b.height; omega
  · rename_i hcond; show y < b.height; omega

@[simp] lemma reset_attributes_width (b : TextBuffer) : b.reset_attributes.width = b.width := rfl

@[simp] lemma reset_attributes_height (b : TextBuffer) : b.reset_attributes.height = b.height := rfl

@[simp] lemma reset_attributes_cursor_x (b : TextBuffer) : b.reset_attributes.cursor_x = b.cursor_x := rfl

@[simp] lemma reset_attributes_cursor_y (b : TextBuffer) : b.reset_attributes.cursor_y = b.cursor_y := rfl

@[simp] lemma reset_attributes_viewport_top (b : TextBuffer) : b.reset_attributes.viewport_top = b.viewport_top := rfl

@[simp] lemma set_bold_width (b : TextBuffer) (v : Bool) : (b.set_bold v).width = b.width := rfl

@[simp] lemma set_bold_height (b : TextBuffer) (v : Bool) : (b.set_bold v).height = b.height := rfl

@[simp] lemma set_bold_cursor_x (b : TextBuffer) (v : Bool) : (b.set_bold v).cursor_x = b.cursor_x := rfl

@[simp] lemma set_bold_cursor_y (b : TextBuffer) (v : Bool) : (b.set_bold v).cursor_y = b.cursor_y := rfl

@[simp] lemma set_bold_viewport_top (b : TextBuffer) (v : Bool) : (b.set_bold v).viewport_top = b.viewport_top := rfl

lemma sgrApply_width (b : TextBuffer) (p : List Nat) : (b.sgrApply p).width = b.width := by
  unfold TextBuffer.sgrApply; split_ifs <;> rfl

lemma sgrApply_height (b : TextBuffer) (p : List Nat) : (b.sgrApply p).height = b.height := by
  unfold TextBuffer.sgrApply; split_ifs <;> rfl

lemma sgrApply_cursor_x (b : TextBuffer) (p : List Nat) : (b.sgrApply p).cursor_x = b.cursor_x := by
  unfold TextBuffer.sgrApply; split_ifs <;> rfl

lemma sgrApply_cursor_y (b : TextBuffer) (p : List Nat) : (b.sgrApply p).cursor_y = b.cursor_y := by
  unfold TextBuffer.sgrApply; split_ifs <;> rfl

lemma sgrApply_viewport_top (b : TextBuffer) (p : List Nat) : (b.sgrApply p).viewport_top = b.viewport_top := by
  unfold TextBuffer.sgrApply; split_ifs <;> rfl

lemma sgr_foldl_width : ∀ (ps : List (List Nat)) (b : TextBuffer),
    (ps.foldl TextBuffer.sgrApply b).width = b.width
  | [], _ => rfl
  | p :: ps, b => by rw [List.foldl_cons, sgr_foldl_width ps, sgrApply_width]

lemma sgr_foldl_height : ∀ (ps : List (List Nat)) (b : TextBuffer),
    (ps.foldl TextBuffer.sgrApply b).height = b.height
  | [], _ => rfl
  | p :: ps, b => by rw [List.foldl_cons, sgr_foldl_height ps, sgrApply_height]

lemma sgr_foldl_cursor_x : ∀ (ps : List (List Nat)) (b : TextBuffer),
    (ps.foldl TextBuffer.sgrApply b).cursor_x = b.cursor_x
  | [], _ => rfl
  | p :: ps, b => by rw [List.foldl_cons, sgr_foldl_cursor_x ps, sgrApply_cursor_x]

lemma sgr_foldl_cursor_y : ∀ (ps : List (List Nat)) (b : TextBuffer),
    (ps.foldl TextBuffer.sgrApply b).cursor_y = b.cursor_y
  | [], _ => rfl
  | p :: ps, b => by rw [List.foldl_cons, sgr_foldl_cursor_y ps, sgrApply_cursor_y]

lemma sgr_foldl_viewport_top : ∀ (ps : List (List Nat)) (b : TextBuffer),
    (ps.foldl TextBuffer.sgrApply b).viewport_top = b.viewport_top
  | [], _ => rfl
  | p :: ps, b => by rw [List.foldl_cons, sgr_foldl_viewport_top ps, sgrApply_viewport_top]

lemma newline_inv (b : TextBuffer) (hw : 1 ≤ b.width) (hh : 1 ≤ b.height) :
    b.newline.width = b.width ∧ b.newline.height = b.height ∧
    b.newline.cursor_x < b.width ∧ b.newline.cursor_y < b.height := by
  unfold TextBuffer.newline
  refine ⟨by simp, by simp, ?_, ?_⟩
  · rw [clamp_y_cursor_x]; show (0 : Nat) < b.width; omega
  · have h1 := clamp_y_cursor_y_lt { b with cursor_x := 0, cursor_y := b.cursor_y + 1 } (by show 1 ≤ b.height; exact hh)
    exact h1

lemma execByte_inv (b : TextBuffer) (byte : Nat) (hw : 1 ≤ b.width) (hh : 1 ≤ b.height)
    (hx : b.cursor_x < b.width) (hy : b.cursor_y < b.height) :
    (b.execByte byte).width = b.width ∧ (b.execByte byte).height = b.height ∧
    (b.execByte byte).cursor_x < b.width ∧ (b.execByte byte).cursor_y < b.height := by
  unfold TextBuffer.execByte
  split
  · exact newline_inv b hw hh
  · exact ⟨rfl, rfl, by show (0 : Nat) < b.width; omega, hy⟩
  · exact ⟨rfl, rfl, hx, hy⟩
  · refine ⟨rfl, rfl, ?_, hy⟩
    show (if 0 < b.cursor_x then b.cursor_x - 1 else b.cursor_x) < b.width
    split <;> omega
  · split
    · exact newline_inv { b with cursor_x := b.cursor_x + (8 - b.cursor_x % 8) } (by show 1 ≤ b.width; omega) (by show 1 ≤ b.height; omega)
    · exact ⟨rfl, rfl, by show b.cursor_x + (8 - b.cursor_x % 8) < b.width; omega, hy⟩
  · exact ⟨rfl, rfl, hx, hy⟩
  · exact ⟨rfl, rfl, hx, hy⟩

lemma csi_dispatch_width (b : TextBuffer) (params : List (List Nat)) (action : Nat) :
    (b.csi_dispatch params action).width = b.width := by
  unfold TextBuffer.csi_dispatch
  split <;>
    first
      | rfl
      | exact move_cursor_width b _ _
      | exact sgr_foldl_width params b
      | (split <;> rfl)

lemma csi_dispatch_height (b : TextBuffer) (params : List (List Nat)) (action : Nat) :
    (b.csi_dispatch params action).height = b.height := by
  unfold TextBuffer.csi_dispatch
  split <;>
    first
      | rfl
      | exact move_cursor_height b _ _
      | exact sgr_foldl_height params b
      | (split <;> rfl)

lemma csi_dispatch_x_lt (b : TextBuffer) (params : List (List Nat)) (action : Nat)
    (hw : 1 ≤ b.width) (hx : b.cursor_x < b.width) :
    (b.csi_dispatch params action).cursor_x < b.width := by
  unfold TextBuffer.csi_dispatch
  split <;>
    first
      | exact hx
      | (show min (b.cursor_x + firstParam 1 params) (b.width - 1) < b.width; omega)
      | (show b.cursor_x - firstParam 1 params < b.width; omega)
      | exact move_cursor_x_lt b _ _ hw
      | (rw [sgr_foldl_cursor_x]; exact hx)
      | (split <;> exact hx)

lemma csi_dispatch_y_lt (b : TextBuffer) (params : List (List Nat)) (action : Nat)
    (hh : 1 ≤ b.height) (hy : b.cursor_y < b.height) :
    (b.csi_dispatch params action).cursor_y < b.height := by
  unfold TextBuffer.csi_dispatch
  split <;>
    first
      | exact hy
      | (show b.cursor_y - firstParam 1 params < b.height; omega)
      | (show min (b.cursor_y + firstParam 1 params) (b.height - 1) < b.height; omega)
      | exact move_cursor_y_lt b _ _ hh
      | (rw [sgr_foldl_cursor_y]; exact hy)
      | (split <;> exact hy)

lemma csi_dispatch_inv (b : TextBuffer) (params : List (List Nat)) (action : Nat)
    (hw : 1 ≤ b.width) (hh : 1 ≤ b.height)
    (hx : b.cursor_x < b.width) (hy : b.cursor_y < b.height) :
    (b.csi_dispatch params action).width = b.width ∧
    (b.csi_dispatch params action).height = b.height ∧
    (b.csi_dispatch params action).cursor_x < b.width ∧
    (b.csi_dispatch params action).cursor_y < b.height :=
  ⟨csi_dispatch_width b params action, csi_dispatch_height b params action,
   csi_dispatch_x_lt b params action hw hx, csi_dispatch_y_lt b params action hh hy⟩

lemma perform_inv (b : TextBuffer) (e : Dispatch) (hw : 1 ≤ b.width) (hh : 1 ≤ b.height)
    (hx : b.cursor_x < b.width) (hy : b.cursor_y < b.height) :
    (b.perform e).width = b.width ∧ (b.perform e).height = b.height ∧
    (b.perform e).cursor_x < b.width ∧ (b.perform e).cursor_y < b.height := by
  cases e with
  | print c => exact insert_char_inv b c hw hh
  | execByte byte => exact execByte_inv b byte hw hh hx hy
  | csi params action => exact csi_dispatch_inv b params action hw hh hx hy
  | escByte byte => exact ⟨rfl, rfl, hx, hy⟩
  | osc => exact ⟨rfl, rfl, hx, hy⟩
  | hook => exact ⟨rfl, rfl, hx, hy⟩
  | putByte byte => exact ⟨rfl, rfl, hx, hy⟩
  | unhook => exact ⟨rfl, rfl, hx, hy⟩

lemma advanceByte_inv (t : Terminal) (byte : Nat) (hw : 1 ≤ t.buffer.width) (hh : 1 ≤ t.buffer.height)
    (hx : t.buffer.cursor_x < t.buffer.width) (hy : t.buffer.cursor_y < t.buffer.height) :
    (t.advanceByte byte).buffer.width = t.buffer.width ∧
    (t.advanceByte byte).buffer.height = t.buffer.height ∧
    (t.advanceByte byte).buffer.cursor_x < t.buffer.width ∧
    (t.advanceByte byte).buffer.cursor_y < t.buffer.height := by
  unfold Terminal.advanceByte
  rcases h : DecoderState.advance t.parser byte with ⟨p, ev⟩
  cases ev with
  | none => exact ⟨rfl, rfl, hx, hy⟩
  | some e => exact perform_inv t.buffer e hw hh hx hy

lemma process_input_inv : ∀ (bytes : List Nat) (t : Terminal),
    1 ≤ t.buffer.width → 1 ≤ t.buffer.height →
    t.buffer.cursor_x < t.buffer.width → t.buffer.cursor_y < t.buffer.height →
    (t.process_input bytes).buffer.width = t.buffer.width ∧
    (t.process_input bytes).buffer.height = t.buffer.height ∧
    (t.process_input bytes).buffer.cursor_x < t.buffer.width ∧
    (t.process_input bytes).buffer.cursor_y < t.buffer.height
  | [], t => fun _ _ hx hy => ⟨rfl, rfl, hx, hy⟩
  | byte :: bytes, t => by
    intro hw hh hx hy
    obtain ⟨e1, e2, l1, l2⟩ := advanceByte_inv t byte hw hh hx hy
    obtain ⟨i1, i2, i3, i4⟩ :=
      process_input_inv bytes (t.advanceByte byte) (by omega) (by omega) (by omega) (by omega)
    have hstep : t.process_input (byte :: bytes) = (t.advanceByte byte).process_input bytes := rfl
    rw [hstep]
    refine ⟨by omega, by omega, by omega, by omega⟩

/-- C4: for every buffer created with positive width and height, the cursor
invariant 0 <= cursor_x < width and 0 <= cursor_y < height holds after
processing any byte sequence through the decoder, and hence after every
decoder dispatch, since every dispatch happens while some byte of such a
sequence is consumed. -/
theorem cursor_bounds_invariant (w h : Nat) (hw : 1 ≤ w) (hh : 1 ≤ h) (bytes : List Nat) :
    (Terminal.process_input (Terminal.new w h) bytes).buffer.cursor_x < w ∧
    (Terminal.process_input (Terminal.new w h) bytes).buffer.cursor_y < h := by
  have := process_input_inv bytes (Terminal.new w h) hw hh hw hh
  exact ⟨this.2.2.1, this.2.2.2⟩

/-- C4 witness: the invariant instantiated on a 2x2 terminal fed a print, a
newline and a partial escape sequence. -/
theorem cursor_bounds_invariant_witness :
    1 ≤ 2 ∧
    ((Terminal.process_input (Terminal.new 2 2) [65, 10, 27, 91]).buffer.cursor_x < 2 ∧
     (Terminal.process_input (Terminal.new 2 2) [65, 10, 27, 91]).buffer.cursor_y < 2) :=
  ⟨by decide, cursor_bounds_invariant 2 2 (by decide) (by decide) [65, 10, 27, 91]⟩

end RT

namespace RT

lemma ensure_row_exists (b : TextBuffer) (h : b.viewport_top + b.cursor_y ≤ b.rows.length) :
    b.viewport_top + b.cursor_y < b.ensure_row.rows.length := by
  rw [ensure_row_rows]; split
  · simp; omega
  · omega

lemma ensure_row_getD_length (b : TextBuffer) :
    ((b.ensure_row.rows[b.viewport_top + b.cursor_y]?).getD []).length =
      ((b.rows[b.viewport_top + b.cursor_y]?).getD []).length := by
  rw [ensure_row_rows]
  split
  · rename_i hc
    rw [List.getElem?_append, if_neg (by omega), List.getElem?_eq_none hc]
    rcases Nat.eq_or_lt_of_le hc with heq | hlt2
    · rw [← heq]
      simp
    · rw [List.getElem?_eq_none (l := [([] : List Cell)]) (by simp; omega)]
  · rfl

lemma write_cell_writes (b : TextBuffer) (c : Char)
    (hrow : b.viewport_top + b.cursor_y < b.rows.length)
    (hlen : b.cursor_x ≤ ((b.rows[b.viewport_top + b.cursor_y]?).getD []).length) :
    ((b.write_cell c).rows[b.viewport_top + b.cursor_y]?.getD [])[b.cursor_x]? = some (Cell.mkChar c) := by
  rcases hr : b.rows[b.viewport_top + b.cursor_y]? with _ | row
  · rw [List.getElem?_eq_none_iff] at hr; omega
  · rw [hr] at hlen
    simp only [Option.getD_some] at hlen
    simp only [TextBuffer.write_cell, hr]
    by_cases hxr : b.cursor_x < row.length
    · rw [if_pos hxr]
      have h1 : (b.rows.set (b.viewport_top + b.cursor_y) (row.set b.cursor_x (Cell.mkChar c)))[b.viewport_top + b.cursor_y]? = some (row.set b.cursor_x (Cell.mkChar c)) :=
        List.getElem?_set_eq_of_lt _ hrow
      have h2 : (row.set b.cursor_x (Cell.mkChar c))[b.cursor_x]? = some (Cell.mkChar c) :=
        List.getElem?_set_eq_of_lt _ hxr
      simp [h1, h2]
    · rw [if_neg hxr]
      have hxeq : b.cursor_x = row.length := by omega
      have h1 : (b.rows.set (b.viewport_top + b.cursor_y) (row ++ [Cell.mkChar c]))[b.viewport_top + b.cursor_y]? = some (row ++ [Cell.mkChar c]) :=
        List.getElem?_set_eq_of_lt _ hrow
      have h2 : (row ++ [Cell.mkChar c])[b.cursor_x]? = some (Cell.mkChar c) := by
        rw [List.getElem?_append, if_neg (by omega)]
        simp [hxeq]
      simp [h1, h2]

lemma write_cell_rows_of_none (b : TextBuffer) (c : Char)
    (h : b.rows[b.viewport_top + b.cursor_y]? = none) :
    b.write_cell c = b := by
  unfold TextBuffer.write_cell
  rw [h]

lemma advance_cursor_spec (b : TextBuffer) (hx : b.cursor_x < b.width) (hy : b.cursor_y < b.height) :
    b.advance_cursor.cursor_x = (if b.cursor_x + 1 < b.width then b.cursor_x + 1 else 0) ∧
    b.advance_cursor.cursor_y =
      (if b.cursor_x + 1 < b.width then b.cursor_y
       else if b.cursor_y + 1 < b.height then b.cursor_y + 1 else b.height - 1) ∧
    b.advance_cursor.viewport_top =
      (if b.cursor_x + 1 < b.width ∨ b.cursor_y + 1 < b.height then b.viewport_top
       else if b.viewport_top + 1 < b.rows.length then b.viewport_top + 1
       else b.rows.length - 1) := by
  unfold TextBuffer.advance_cursor
  by_cases hxw : b.cursor_x + 1 < b.width
  · rw [if_neg (by omega)]
    simp [hxw]
  · rw [if_pos (by omega)]
    unfold TextBuffer.clamp_y
    by_cases hyh : b.cursor_y + 1 < b.height
    · rw [if_neg (by show ¬ (b.height ≤ _); simp; omega)]
      simp [hxw, hyh]
    · rw [if_pos (by show b.height ≤ _; simp; omega)]
      unfold TextBuffer.scroll_down
      simp [hxw, hyh]

end RT

namespace RT

lemma insert_char_spec (b : TextBuffer) (c : Char)
    (hx : b.cursor_x < b.width) (hy : b.cursor_y < b.height)
    (hrow : b.viewport_top + b.cursor_y ≤ b.rows.length)
    (hlen : b.cursor_x ≤ ((b.rows[b.viewport_top + b.cursor_y]?).getD []).length) :
    ((b.insert_char c).rows[b.viewport_top + b.cursor_y]?.getD [])[b.cursor_x]? = some (Cell.mkChar c) ∧
    (b.insert_char c).cursor_x = (if b.cursor_x + 1 < b.width then b.cursor_x + 1 else 0) ∧
    (b.insert_char c).cursor_y =
      (if b.cursor_x + 1 < b.width then b.cursor_y
       else if b.cursor_y + 1 < b.height then b.cursor_y + 1 else b.height - 1) ∧
    (b.insert_char c).viewport_top =
      (if b.cursor_x + 1 < b.width ∨ b.cursor_y + 1 < b.height then b.viewport_top
       else if b.viewport_top + 1 < b.ensure_row.rows.length then b.viewport_top + 1
       else b.ensure_row.rows.length - 1) := by
  have hclamp : b.clamp_y = b := clamp_y_of_lt b hy
  have heq : b.insert_char c = ((b.ensure_row).write_cell c).advance_cursor := by
    unfold TextBuffer.insert_char; rw [hclamp]
  have hrow1 : (b.ensure_row).viewport_top + (b.ensure_row).cursor_y < (b.ensure_row).rows.length := by
    rw [ensure_row_viewport_top, ensure_row_cursor_y]
    exact ensure_row_exists b hrow
  have hlen1 : (b.ensure_row).cursor_x ≤ (((b.ensure_row).rows[(b.ensure_row).viewport_top + (b.ensure_row).cursor_y]?).getD []).length := by
    rw [ensure_row_viewport_top, ensure_row_cursor_y, ensure_row_cursor_x, ensure_row_getD_length]
    exact hlen
  have hcell := write_cell_writes (b.ensure_row) c hrow1 hlen1
  rw [ensure_row_viewport_top, ensure_row_cursor_y, ensure_row_cursor_x] at hcell
  have hwx : ((b.ensure_row).write_cell c).cursor_x = b.cursor_x := by
    rw [write_cell_cursor_x, ensure_row_cursor_x]
  have hwy : ((b.ensure_row).write_cell c).cursor_y = b.cursor_y := by
    rw [write_cell_cursor_y, ensure_row_cursor_y]
  have hww : ((b.ensure_row).write_cell c).width = b.width := by
    rw [write_cell_width, ensure_row_width]
  have hwh : ((b.ensure_row).write_cell c).height = b.height := by
    rw [write_cell_height, ensure_row_height]
  have hwv : ((b.ensure_row).write_cell c).viewport_top = b.viewport_top := by
    rw [write_cell_viewport_top, ensure_row_viewport_top]
  have hwl : ((b.ensure_row).write_cell c).rows.length = (b.ensure_row).rows.length :=
    write_cell_rows_length _ c
  obtain ⟨ha1, ha2, ha3⟩ :=
    advance_cursor_spec ((b.ensure_row).write_cell c) (by rw [hwx, hww]; exact hx) (by rw [hwy, hwh]; exact hy)
  simp only [hwx, hwy, hww, hwh, hwv, hwl] at ha1 ha2 ha3
  rw [heq]
  exact ⟨by rw [advance_cursor_rows]; exact hcell, ha1, ha2, ha3⟩

/-- C3 amended: dispatching Print c with the cursor in bounds writes the
default-attribute cell holding c at column cursor_x of row
viewport_top+cursor_y, provided that row index does not exceed the current
row count (so the lazily created row covers it) and cursor_x does not exceed
that row's current length (insert_char otherwise appends at the row end, or
drops the character); the cursor moves to (cursor_x+1, cursor_y), or to
(0, cursor_y+1) when cursor_x+1 = width; when additionally cursor_y+1 =
height the cursor stays on the last line and viewport_top becomes
viewport_top+1 when viewport_top+1 < row count after lazy creation (so
whenever height >= 2), and otherwise becomes that row count minus one. -/
theorem print_dispatch_spec (b : TextBuffer) (c : Char)
    (hx : b.cursor_x < b.width) (hy : b.cursor_y < b.height)
    (hrow : b.viewport_top + b.cursor_y ≤ b.rows.length)
    (hlen : b.cursor_x ≤ ((b.rows[b.viewport_top + b.cursor_y]?).getD []).length) :
    ((b.perform (Dispatch.print c)).rows[b.viewport_top + b.cursor_y]?.getD [])[b.cursor_x]? = some ⟨c, none, none, false, false⟩ ∧
    (b.perform (Dispatch.print c)).cursor_x = (if b.cursor_x + 1 < b.width then b.cursor_x + 1 else 0) ∧
    (b.perform (Dispatch.print c)).cursor_y =
      (if b.cursor_x + 1 < b.width then b.cursor_y
       else if b.cursor_y + 1 < b.height then b.cursor_y + 1 else b.height - 1) ∧
    (b.perform (Dispatch.print c)).viewport_top =
      (if b.cursor_x + 1 < b.width ∨ b.cursor_y + 1 < b.height then b.viewport_top
       else if b.viewport_top + 1 < b.ensure_row.rows.length then b.viewport_top + 1
       else b.ensure_row.rows.length - 1) :=
  insert_char_spec b c hx hy hrow hlen

/-- C3 witness: the amended Print specification applied to a fresh 4x4
buffer. -/
theorem print_dispatch_spec_witness :
    ((TextBuffer.new 4 4).cursor_x < (TextBuffer.new 4 4).width ∧
     (TextBuffer.new 4 4).cursor_y < (TextBuffer.new 4 4).height ∧
     (TextBuffer.new 4 4).viewport_top + (TextBuffer.new 4 4).cursor_y ≤ (TextBuffer.new 4 4).rows.length) ∧
    (((TextBuffer.new 4 4).perform (Dispatch.print (Char.ofNat 65))).rows[0]?.getD [])[0]? =
      some ⟨Char.ofNat 65, none, none, false, false⟩ :=
  ⟨by decide, by
    have h := (print_dispatch_spec (TextBuffer.new 4 4) (Char.ofNat 65)
      (by decide) (by decide) (by decide) (by decide)).1
    simpa using h⟩

/-- C10: with the cursor row index at least two past the last existing
scrollback row (reachable through CSI B) and no pending line wrap,
dispatching Print c appends exactly one empty row, writes c into no cell
(the rows besides the appended empty one are unchanged), and still advances
cursor_x by one as if the character had been printed. -/
theorem print_past_end_drops_char (b : TextBuffer) (c : Char)
    (hy : b.cursor_y < b.height)
    (hfar : b.rows.length + 1 ≤ b.viewport_top + b.cursor_y)
    (hx1 : b.cursor_x + 1 < b.width) :
    (b.perform (Dispatch.print c)).rows = b.rows ++ [[]] ∧
    (b.perform (Dispatch.print c)).cursor_x = b.cursor_x + 1 ∧
    (b.perform (Dispatch.print c)).cursor_y = b.cursor_y ∧
    (b.perform (Dispatch.print c)).viewport_top = b.viewport_top := by
  have hclamp : b.clamp_y = b := clamp_y_of_lt b hy
  have heq : b.perform (Dispatch.print c) = ((b.ensure_row).write_cell c).advance_cursor := by
    show b.insert_char c = _
    unfold TextBuffer.insert_char; rw [hclamp]
  have hens : b.ensure_row.rows = b.rows ++ [[]] := by
    rw [ensure_row_rows, if_pos (by omega)]
  have hnone : (b.ensure_row).rows[(b.ensure_row).viewport_top + (b.ensure_row).cursor_y]? = none := by
    rw [ensure_row_viewport_top, ensure_row_cursor_y, hens]
    apply List.getElem?_eq_none
    simp; omega
  have hwr : (b.ensure_row).write_cell c = b.ensure_row := write_cell_rows_of_none _ c hnone
  rw [heq, hwr]
  unfold TextBuffer.advance_cursor
  rw [if_neg (by rw [ensure_row_width, ensure_row_cursor_x]; omega)]
  refine ⟨?_, ?_, ?_, ?_⟩ <;> simp [hens]

/-- C10 witness: a 4x4 buffer with no scrollback rows whose cursor was moved
to line 2 (e.g. by CSI B 2): printing A appends one empty row, writes
nothing, and advances cursor_x. -/
theorem print_past_end_drops_char_witness :
    ((⟨[], 4, 4, 0, 0, 2⟩ : TextBuffer).cursor_y < (⟨[], 4, 4, 0, 0, 2⟩ : TextBuffer).height ∧
     (⟨[], 4, 4, 0, 0, 2⟩ : TextBuffer).rows.length + 1 ≤
       (⟨[], 4, 4, 0, 0, 2⟩ : TextBuffer).viewport_top + (⟨[], 4, 4, 0, 0, 2⟩ : TextBuffer).cursor_y) ∧
    ((⟨[], 4, 4, 0, 0, 2⟩ : TextBuffer).perform (Dispatch.print (Char.ofNat 65))).rows =
      (⟨[], 4, 4, 0, 0, 2⟩ : TextBuffer).rows ++ [[]] ∧
    ((⟨[], 4, 4, 0, 0, 2⟩ : TextBuffer).perform (Dispatch.print (Char.ofNat 65))).cursor_x =
      (⟨[], 4, 4, 0, 0, 2⟩ : TextBuffer).cursor_x + 1 :=
  ⟨by decide, by
    have h := print_past_end_drops_char (⟨[], 4, 4, 0, 0, 2⟩ : TextBuffer) (Char.ofNat 65)
      (by decide) (by decide) (by decide)
    exact ⟨h.1, h.2.1⟩⟩

end RT

namespace RT

@[simp] lemma set_bold_rows_length (b : TextBuffer) (v : Bool) :
    (b.set_bold v).rows.length = b.rows.length := by
  simp [TextBuffer.set_bold]

@[simp] lemma reset_attributes_rows_length (b : TextBuffer) :
    b.reset_attributes.rows.length = b.rows.length := by
  simp [TextBuffer.reset_attributes]

lemma set_bold_getD_length (b : TextBuffer) (v : Bool) (j : Nat) :
    (((b.set_bold v).rows[j]?).getD []).length = ((b.rows[j]?).getD []).length := by
  simp only [TextBuffer.set_bold]
  rw [listUpdate_getElem?]
  split
  · rcases h : b.rows[j]? with _ | row <;> simp [h]
  · rfl

lemma reset_attributes_getD_length (b : TextBuffer) (j : Nat) :
    ((b.reset_attributes.rows[j]?).getD []).length = ((b.rows[j]?).getD []).length := by
  simp only [TextBuffer.reset_attributes]
  rw [listUpdate_getElem?]
  split
  · rcases h : b.rows[j]? with _ | row <;> simp [h]
  · rfl

/-- C5 amended: a printed cell always carries the default attributes, because
insert_char writes Cell with char c and Default::default() for everything
else, while SGR parameters mutate only the already-stored cells. So after
SGR 1 (bold on) the next printed cell holds the character with bold, as all
attributes, still at their defaults (not bold as the claim stated), and after
SGR 0 (reset) the next printed cell likewise has bold=false, underline=false
and default colors. -/
theorem sgr_then_print_attrs (b : TextBuffer) (c c2 : Char)
    (hx : b.cursor_x < b.width) (hy : b.cursor_y < b.height)
    (hrow : b.viewport_top + b.cursor_y ≤ b.rows.length)
    (hlen : b.cursor_x ≤ ((b.rows[b.viewport_top + b.cursor_y]?).getD []).length) :
    (((b.perform (Dispatch.csi [[1]] 109)).perform (Dispatch.print c)).rows[b.viewport_top + b.cursor_y]?.getD [])[b.cursor_x]? =
      some ⟨c, none, none, false, false⟩ ∧
    (((b.perform (Dispatch.csi [[0]] 109)).perform (Dispatch.print c2)).rows[b.viewport_top + b.cursor_y]?.getD [])[b.cursor_x]? =
      some ⟨c2, none, none, false, false⟩ := by
  constructor
  · have h109 : b.perform (Dispatch.csi [[1]] 109) = b.set_bold true := rfl
    rw [h109]
    have key := (insert_char_spec (b.set_bold true) c
        (by rw [set_bold_cursor_x, set_bold_width]; exact hx)
        (by rw [set_bold_cursor_y, set_bold_height]; exact hy)
        (by rw [set_bold_viewport_top, set_bold_cursor_y, set_bold_rows_length]; exact hrow)
        (by rw [set_bold_cursor_x, set_bold_viewport_top, set_bold_cursor_y, set_bold_getD_length]; exact hlen)).1
    rw [set_bold_viewport_top, set_bold_cursor_y, set_bold_cursor_x] at key
    exact key
  · have h109 : b.perform (Dispatch.csi [[0]] 109) = b.reset_attributes := rfl
    rw [h109]
    have key := (insert_char_spec b.reset_attributes c2
        (by rw [reset_attributes_cursor_x, reset_attributes_width]; exact hx)
        (by rw [reset_attributes_cursor_y, reset_attributes_height]; exact hy)
        (by rw [reset_attributes_viewport_top, reset_attributes_cursor_y, reset_attributes_rows_length]; exact hrow)
        (by rw [reset_attributes_cursor_x, reset_attributes_viewport_top, reset_attributes_cursor_y, reset_attributes_getD_length]; exact hlen)).1
    rw [reset_attributes_viewport_top, reset_attributes_cursor_y, reset_attributes_cursor_x] at key
    exact key

/-- C5 witness: the amended attribute claim on a buffer holding one cell at
the cursor: SGR 1 then printing the character 67 yields that cell with
default attributes; likewise after SGR 0. -/
theorem sgr_then_print_attrs_witness :
    ((⟨[[Cell.mkChar (Char.ofNat 66)]], 4, 4, 0, 0, 0⟩ : TextBuffer).cursor_x <
       (⟨[[Cell.mkChar (Char.ofNat 66)]], 4, 4, 0, 0, 0⟩ : TextBuffer).width ∧
     (⟨[[Cell.mkChar (Char.ofNat 66)]], 4, 4, 0, 0, 0⟩ : TextBuffer).viewport_top +
       (⟨[[Cell.mkChar (Char.ofNat 66)]], 4, 4, 0, 0, 0⟩ : TextBuffer).cursor_y ≤
       (⟨[[Cell.mkChar (Char.ofNat 66)]], 4, 4, 0, 0, 0⟩ : TextBuffer).rows.length) ∧
    ((((⟨[[Cell.mkChar (Char.ofNat 66)]], 4, 4, 0, 0, 0⟩ : TextBuffer).perform
        (Dispatch.csi [[1]] 109)).perform (Dispatch.print (Char.ofNat 67))).rows[0]?.getD [])[0]? =
      some ⟨Char.ofNat 67, none, none, false, false⟩ :=
  ⟨by decide, by
    have h := (sgr_then_print_attrs (⟨[[Cell.mkChar (Char.ofNat 66)]], 4, 4, 0, 0, 0⟩ : TextBuffer)
      (Char.ofNat 67) (Char.ofNat 67) (by decide) (by decide) (by decide) (by decide)).1
    simpa using h⟩

end RT

namespace RT

lemma getElem?_mapSkip (f : List Cell → List Cell) :
    ∀ (n : Nat) (l : List (List Cell)) (i : Nat),
    (mapSkip f n l)[i]? = if i < n then l[i]? else (l[i]?).map f
  | n, [], i => by cases n <;> simp [mapSkip]
  | 0, r :: rest, 0 => by simp [mapSkip]
  | 0, r :: rest, (i + 1) => by
      simp only [mapSkip, List.getElem?_cons_succ]
      rw [getElem?_mapSkip f 0 rest i]
      simp
  | (n + 1), r :: rest, 0 => by simp [mapSkip]
  | (n + 1), r :: rest, (i + 1) => by
      simp only [mapSkip, List.getElem?_cons_succ]
      rw [getElem?_mapSkip f n rest i]
      by_cases h : i < n
      · rw [if_pos h, if_pos (by omega)]
      · rw [if_neg h, if_neg (by omega)]

lemma getElem?_mapTake (f : List Cell → List Cell) :
    ∀ (n : Nat) (l : List (List Cell)) (i : Nat),
    (mapTake f n l)[i]? = if i < n then (l[i]?).map f else l[i]?
  | n, [], i => by cases n <;> simp [mapTake]
  | 0, r :: rest, i => by simp [mapTake]
  | (n + 1), r :: rest, 0 => by simp [mapTake]
  | (n + 1), r :: rest, (i + 1) => by
      simp only [mapTake, List.getElem?_cons_succ]
      rw [getElem?_mapTake f n rest i]
      by_cases h : i < n
      · rw [if_pos h, if_pos (by omega)]
      · rw [if_neg h, if_neg (by omega)]

lemma getElem?_eraseFrom : ∀ (n : Nat) (row : List Cell) (j : Nat),
    (eraseFrom n row)[j]? = (row[j]?).map (fun cl => if n ≤ j then Cell.default else cl)
  | n, [], j => by cases n <;> simp [eraseFrom]
  | 0, c :: rest, 0 => by simp [eraseFrom]
  | 0, c :: rest, (j + 1) => by
      simp only [eraseFrom, List.getElem?_cons_succ]
      rw [getElem?_eraseFrom 0 rest j]
      simp
  | (n + 1), c :: rest, 0 => by simp [eraseFrom]
  | (n + 1), c :: rest, (j + 1) => by
      simp only [eraseFrom, List.getElem?_cons_succ]
      rw [getElem?_eraseFrom n rest j]
      rcases rest[j]? with _ | cl
      · simp
      · simp only [Option.map_some']
        by_cases h : n ≤ j
        · rw [if_pos h, if_pos (by omega)]
        · rw [if_neg h, if_neg (by omega)]

lemma getElem?_eraseTo : ∀ (n : Nat) (row : List Cell) (j : Nat),
    (eraseTo n row)[j]? = (row[j]?).map (fun cl => if j < n then Cell.default else cl)
  | n, [], j => by cases n <;> simp [eraseTo]
  | 0, c :: rest, j => by simp [eraseTo]
  | (n + 1), c :: rest, 0 => by simp [eraseTo]
  | (n + 1), c :: rest, (j + 1) => by
      simp only [eraseTo, List.getElem?_cons_succ]
      rw [getElem?_eraseTo n rest j]
      rcases rest[j]? with _ | cl
      · simp
      · simp only [Option.map_some']
        by_cases h : j < n
        · rw [if_pos h, if_pos (by omega)]
        · rw [if_neg h, if_neg (by omega)]

end RT

namespace RT

/-- C7 amended: CSI J erases rectangles rather than a row-major range: mode 0
resets, in every row from the cursor row on, exactly the cells at columns >=
cursor_x (cells at columns below cursor_x of later rows survive); mode 1
resets, in every row up to the cursor row, exactly the cells at columns <=
cursor_x; mode 2 resets every cell of every row, so in particular every cell
of the visible viewport is the default cell afterwards. -/
theorem erase_display_modes (b : TextBuffer) (i j : Nat) :
    ((b.perform (Dispatch.csi [[0]] 74)).rows[i]?.getD [])[j]? =
      (((b.rows[i]?).getD [])[j]?).map
        (fun cl => if b.viewport_top + b.cursor_y ≤ i ∧ b.cursor_x ≤ j then Cell.default else cl) ∧
    ((b.perform (Dispatch.csi [[1]] 74)).rows[i]?.getD [])[j]? =
      (((b.rows[i]?).getD [])[j]?).map
        (fun cl => if i ≤ b.viewport_top + b.cursor_y ∧ j ≤ b.cursor_x then Cell.default else cl) ∧
    ((b.perform (Dispatch.csi [[2]] 74)).rows[i]?.getD [])[j]? =
      (((b.rows[i]?).getD [])[j]?).map (fun _ => Cell.default) := by
  refine ⟨?_, ?_, ?_⟩
  · have h : b.perform (Dispatch.csi [[0]] 74) = b.erase_screen_from_cursor := rfl
    rw [h]
    show ((mapSkip (eraseFrom b.cursor_x) (b.viewport_top + b.cursor_y) b.rows)[i]?.getD [])[j]? = _
    rw [getElem?_mapSkip]
    by_cases hi : i < b.viewport_top + b.cursor_y
    · rw [if_pos hi]
      rcases hv : ((b.rows[i]?).getD [])[j]? with _ | cl
      · simp
      · simp only [Option.map_some']
        rw [if_neg (by omega)]
    · rw [if_neg hi]
      rcases hr : b.rows[i]? with _ | row
      · simp
      · simp only [Option.map_some', Option.getD_some]
        rw [getElem?_eraseFrom]
        rcases hc : row[j]? with _ | cl
        · simp
        · simp only [Option.map_some']
          by_cases hj : b.cursor_x ≤ j
          · rw [if_pos hj, if_pos (by omega)]
          · rw [if_neg hj, if_neg (by omega)]
  · have h : b.perform (Dispatch.csi [[1]] 74) = b.erase_screen_to_cursor := rfl
    rw [h]
    show ((mapTake (eraseTo (b.cursor_x + 1)) (b.viewport_top + b.cursor_y + 1) b.rows)[i]?.getD [])[j]? = _
    rw [getElem?_mapTake]
    by_cases hi : i < b.viewport_top + b.cursor_y + 1
    · rw [if_pos hi]
      rcases hr : b.rows[i]? with _ | row
      · simp
      · simp only [Option.map_some', Option.getD_some]
        rw [getElem?_eraseTo]
        rcases hc : row[j]? with _ | cl
        · simp
        · simp only [Option.map_some']
          by_cases hj : j < b.cursor_x + 1
          · rw [if_pos hj, if_pos (by omega)]
          · rw [if_neg hj, if_neg (by omega)]
    · rw [if_neg hi]
      rcases hv : ((b.rows[i]?).getD [])[j]? with _ | cl
      · simp
      · simp only [Option.map_some']
        rw [if_neg (by omega)]
  · have h : b.perform (Dispatch.csi [[2]] 74) = b.erase_screen := rfl
    rw [h]
    show ((b.rows.map (fun row => row.map (fun _ => Cell.default)))[i]?.getD [])[j]? = _
    rw [List.getElem?_map]
    rcases hr : b.rows[i]? with _ | row
    · simp
    · simp only [Option.map_some', Option.getD_some]
      rw [List.getElem?_map]

end RT

namespace RT

/-- Glyph cache key from src/atlas.rs CacheKey: (character, font_size). -/
structure CacheKey where
  character : Char
  font_size : Nat
deriving DecidableEq

/-- Glyph rectangle from src/atlas.rs GlyphDetails: origin and dimensions in
atlas pixel coordinates. -/
structure GlyphDetails where
  x : Nat
  y : Nat
  width : Nat
  height : Nat
deriving DecidableEq

/-- Two rectangles overlap when they share a pixel. -/
def GlyphDetails.overlaps (a b : GlyphDetails) : Prop :=
  a.x < b.x + b.width ∧ b.x < a.x + a.width ∧ a.y < b.y + b.height ∧ b.y < a.y + a.height

instance (a b : GlyphDetails) : Decidable (a.overlaps b) := by
  unfold GlyphDetails.overlaps; infer_instance

/-- A rectangle lies within a square surface of the given size. -/
def GlyphDetails.inBounds (d : GlyphDetails) (s : Nat) : Prop :=
  d.x + d.width ≤ s ∧ d.y + d.height ≤ s

instance (d : GlyphDetails) (s : Nat) : Decidable (d.inBounds s) := by
  unfold GlyphDetails.inBounds; infer_instance

/-- Modelled from the spec: the external bin packer (guillotiere's
AtlasAllocator in src/atlas.rs) is a 2D bin-packing allocator assigning
non-overlapping rectangles within a fixed-size square surface; it is
modelled as a shelf packer that fills the current shelf left to right and
opens a new shelf below when the current one cannot take the rectangle. -/
structure Packer where
  size : Nat
  shelfX : Nat
  shelfY : Nat
  shelfH : Nat
deriving DecidableEq

/-- Modelled from the spec: a fresh packer over an empty surface, as built by
BucketedAtlasAllocator::new. -/
def Packer.fresh (s : Nat) : Packer := ⟨s, 0, 0, 0⟩

/-- Modelled from the spec: allocate a w-by-h rectangle, in the current shelf
when it fits, else in a new shelf below, else fail. -/
def Packer.allocate (p : Packer) (w h : Nat) : Option (GlyphDetails × Packer) :=
  if p.shelfX + w ≤ p.size ∧ p.shelfY + max p.shelfH h ≤ p.size then
    some (⟨p.shelfX, p.shelfY, w, h⟩, ⟨p.size, p.shelfX + w, p.shelfY, max p.shelfH h⟩)
  else if w ≤ p.size ∧ p.shelfY + p.shelfH + h ≤ p.size then
    some (⟨0, p.shelfY + p.shelfH, w, h⟩, ⟨p.size, w, p.shelfY + p.shelfH, h⟩)
  else none

/-- A rectangle handed out earlier by this packer: it lies above the shelf
frontier, or inside the current shelf left of its fill mark. -/
def Packer.placed (p : Packer) (d : GlyphDetails) : Prop :=
  d.y + d.height ≤ p.shelfY ∨
  (p.shelfY ≤ d.y ∧ d.x + d.width ≤ p.shelfX ∧ d.y + d.height ≤ p.shelfY + p.shelfH)

/-- Modelled from the spec: the lru crate's LruCache from src/atlas.rs, as a
most-recent-first association list with a fixed capacity; get refreshes
recency and put inserts at the front, evicting the least-recently-used
entry when the capacity is exceeded. -/
structure LruCache where
  cap : Nat
  entries : List (CacheKey × GlyphDetails)
deriving DecidableEq

/-- First-match association-list lookup. -/
def lookupKey : List (CacheKey × GlyphDetails) → CacheKey → Option GlyphDetails
  | [], _ => none
  | e :: rest, k => if e.1 = k then some e.2 else lookupKey rest k

/-- Remove the first entry with the given key, if any. -/
def eraseKey : List (CacheKey × GlyphDetails) → CacheKey → List (CacheKey × GlyphDetails)
  | [], _ => []
  | e :: rest, k => if e.1 = k then rest else e :: eraseKey rest k

/-- The value stored under a key. -/
def LruCache.lookup (c : LruCache) (k : CacheKey) : Option GlyphDetails :=
  lookupKey c.entries k

/-- LruCache::get: return the stored value and move its entry to the front. -/
def LruCache.get (c : LruCache) (k : CacheKey) : Option GlyphDetails × LruCache :=
  match lookupKey c.entries k with
  | some v => (some v, { c with entries := (k, v) :: eraseKey c.entries k })
  | none => (none, c)

/-- LruCache::put: insert or refresh at the front; drop the last (least
recently used) entry when the capacity is exceeded. -/
def LruCache.put (c : LruCache) (k : CacheKey) (v : GlyphDetails) : LruCache :=
  { c with entries :=
      if c.cap < ((k, v) :: eraseKey c.entries k).length
      then ((k, v) :: eraseKey c.entries k).dropLast
      else (k, v) :: eraseKey c.entries k }

/-- The glyph atlas from src/atlas.rs InnerAtlas, with the GPU texture and
texture view omitted (texture writes do not affect the modelled state); the
fontdue rasterizer is passed to the operations as a function from
(character, font_size) to the bitmap dimensions it produces. -/
structure InnerAtlas where
  packer : Packer
  size : Nat
  glyph_cache : LruCache
deriving DecidableEq

/-- InnerAtlas::new: a 256-pixel surface with a fresh packer and an empty
cache of capacity 1000. -/
def InnerAtlas.new : InnerAtlas := ⟨Packer.fresh 256, 256, ⟨1000, []⟩⟩

/-- The re-pack loop of InnerAtlas::grow: for every snapshotted cache entry,
re-rasterize and allocate in the new packer, updating the live cache; a
failed allocation is the source's .expect panic, modelled as none. -/
def growLoop (rasterize : Char → Nat → Nat × Nat) :
    List (CacheKey × GlyphDetails) → Packer → LruCache → Option (Packer × LruCache)
  | [], p, cache => some (p, cache)
  | (k, _) :: rest, p, cache =>
    match p.allocate (rasterize k.character k.font_size).1 (rasterize k.character k.font_size).2 with
    | none => none
    | some (r, p') => growLoop rasterize rest p' (cache.put k r)

/-- InnerAtlas::grow: double the size, then re-rasterize and re-pack every
cached glyph into a fresh packer over the doubled surface, replacing each
stored rectangle. -/
def InnerAtlas.grow (rasterize : Char → Nat → Nat × Nat) (atlas : InnerAtlas) : Option InnerAtlas :=
  match growLoop rasterize atlas.glyph_cache.entries (Packer.fresh (atlas.size * 2)) atlas.glyph_cache with
  | some (p', cache') => some ⟨p', atlas.size * 2, cache'⟩
  | none => none

/-- InnerAtlas::upload_glyph_to_atlas: allocate a slot in the packer (the
texture upload itself has no modelled effect); when allocation fails, grow
the atlas and retry. The source recursion is unbounded (it retries after
every grow and aborts when grow panics); fuel bounds the retries here, and
none covers both the panic and the out-of-fuel case. -/
def upload_glyph_to_atlas (rasterize : Char → Nat → Nat × Nat) :
    Nat → InnerAtlas → Nat → Nat → Option ((Nat × Nat) × InnerAtlas)
  | fuel, atlas, w, h =>
    match atlas.packer.allocate w h, fuel with
    | some (r, p'), _ => some ((r.x, r.y), { atlas with packer := p' })
    | none, 0 => none
    | none, fuel' + 1 =>
      match InnerAtlas.grow rasterize atlas with
      | some atlas' => upload_glyph_to_atlas rasterize fuel' atlas' w h
      | none => none

/-- InnerAtlas::get_or_create_glyph: cache hit returns the stored rectangle
(refreshing recency); a rasterization with zero width or height returns none
without touching the cache; otherwise the glyph is packed (growing on
demand) and the rectangle is stored in the cache and returned. -/
def InnerAtlas.get_or_create_glyph (rasterize : Char → Nat → Nat × Nat) (atlas : InnerAtlas)
    (character : Char) (font_size : Nat) (fuel : Nat) : Option GlyphDetails × InnerAtlas :=
  match atlas.glyph_cache.get ⟨character, font_size⟩ with
  | (some details, cache') => (some details, { atlas with glyph_cache := cache' })
  | (none, _) =>
    if (rasterize character font_size).1 = 0 ∨ (rasterize character font_size).2 = 0 then
      (none, atlas)
    else
      match upload_glyph_to_atlas rasterize fuel atlas
        (rasterize character font_size).1 (rasterize character font_size).2 with
      | some (xy, atlas') =>
        let gd : GlyphDetails := ⟨xy.1, xy.2, (rasterize character font_size).1, (rasterize character font_size).2⟩
        (some gd, { atlas' with glyph_cache := atlas'.glyph_cache.put ⟨character, font_size⟩ gd })
      | none => (none, atlas)

end RT

namespace RT

lemma allocate_spec (p : Packer) (w h : Nat) (d : GlyphDetails) (p' : Packer)
    (hal : p.allocate w h = some (d, p')) :
    p'.size = p.size ∧ d.inBounds p.size ∧ p'.placed d ∧
    ∀ e, p.placed e → p'.placed e ∧ ¬ e.overlaps d ∧ ¬ d.overlaps e := by
  unfold Packer.allocate at hal
  split_ifs at hal with h1 h2
  · simp only [Option.some.injEq, Prod.mk.injEq] at hal
    obtain ⟨hd, hp⟩ := hal
    subst hd; subst hp
    refine ⟨rfl, ?_, ?_, ?_⟩
    · simp [GlyphDetails.inBounds]; omega
    · simp [Packer.placed]
    · intro e he
      rcases he with he | ⟨he1, he2, he3⟩ <;>
        refine ⟨?_, ?_, ?_⟩ <;> (simp [Packer.placed, GlyphDetails.overlaps]; omega)
  · simp only [Option.some.injEq, Prod.mk.injEq] at hal
    obtain ⟨hd, hp⟩ := hal
    subst hd; subst hp
    refine ⟨rfl, ?_, ?_, ?_⟩
    · simp [GlyphDetails.inBounds]; omega
    · simp [Packer.placed]
    · intro e he
      rcases he with he | ⟨he1, he2, he3⟩ <;>
        refine ⟨?_, ?_, ?_⟩ <;> (simp [Packer.placed, GlyphDetails.overlaps]; omega)

lemma lookupKey_eraseKey_ne : ∀ (l : List (CacheKey × GlyphDetails)) (k k' : CacheKey),
    k' ≠ k → lookupKey (eraseKey l k) k' = lookupKey l k'
  | [], _, _, _ => rfl
  | e :: rest, k, k', hne => by
    by_cases h1 : e.1 = k
    · simp only [eraseKey, if_pos h1, lookupKey]
      rw [if_neg (by intro hh; exact hne (hh.symm.trans h1))]
    · simp only [eraseKey, if_neg h1, lookupKey]
      by_cases h2 : e.1 = k'
      · rw [if_pos h2, if_pos h2]
      · rw [if_neg h2, if_neg h2]
        exact lookupKey_eraseKey_ne rest k k' hne

lemma length_eraseKey_of_isSome : ∀ (l : List (CacheKey × GlyphDetails)) (k : CacheKey),
    (lookupKey l k).isSome → (eraseKey l k).length + 1 = l.length
  | [], k, hs => by simp [lookupKey] at hs
  | e :: rest, k, hs => by
    by_cases h1 : e.1 = k
    · simp [eraseKey, if_pos h1]
    · simp only [lookupKey, if_neg h1] at hs
      simp only [eraseKey, if_neg h1, List.length_cons]
      rw [← length_eraseKey_of_isSome rest k hs]

lemma eraseKey_sublist : ∀ (l : List (CacheKey × GlyphDetails)) (k : CacheKey),
    (eraseKey l k).Sublist l
  | [], _ => List.Sublist.refl _
  | e :: rest, k => by
    by_cases h1 : e.1 = k
    · simp only [eraseKey, if_pos h1]
      exact List.sublist_cons_self e rest
    · simp only [eraseKey, if_neg h1]
      exact List.Sublist.cons₂ e (eraseKey_sublist rest k)

lemma not_mem_keys_eraseKey : ∀ (l : List (CacheKey × GlyphDetails)) (k : CacheKey),
    (l.map Prod.fst).Nodup → k ∉ (eraseKey l k).map Prod.fst
  | [], k, _ => by simp [eraseKey]
  | e :: rest, k, hnd => by
    simp only [List.map_cons, List.nodup_cons] at hnd
    by_cases h1 : e.1 = k
    · simp only [eraseKey, if_pos h1]
      rw [← h1]
      exact hnd.1
    · simp only [eraseKey, if_neg h1, List.map_cons, List.mem_cons]
      push_neg
      exact ⟨fun hh => h1 hh.symm, not_mem_keys_eraseKey rest k hnd.2⟩

lemma mem_keys_of_lookupKey_isSome : ∀ (l : List (CacheKey × GlyphDetails)) (k : CacheKey),
    (lookupKey l k).isSome → k ∈ l.map Prod.fst
  | [], k, hs => by simp [lookupKey] at hs
  | e :: rest, k, hs => by
    by_cases h1 : e.1 = k
    · simp [h1]
    · simp only [lookupKey, if_neg h1] at hs
      simp only [List.map_cons, List.mem_cons]
      exact Or.inr (mem_keys_of_lookupKey_isSome rest k hs)

lemma lookupKey_isSome_of_mem_keys : ∀ (l : List (CacheKey × GlyphDetails)) (k : CacheKey),
    k ∈ l.map Prod.fst → (lookupKey l k).isSome
  | [], k, hm => by simp at hm
  | e :: rest, k, hm => by
    by_cases h1 : e.1 = k
    · simp [lookupKey, if_pos h1]
    · simp only [List.map_cons, List.mem_cons] at hm
      rcases hm with hm | hm
      · exact absurd hm.symm h1
      · simp only [lookupKey, if_neg h1]
        exact lookupKey_isSome_of_mem_keys rest k hm

end RT

namespace RT

lemma put_entries_eq (c : LruCache) (k : CacheKey) (v : GlyphDetails)
    (hmem : (c.lookup k).isSome) (hlen : c.entries.length ≤ c.cap) :
    (c.put k v).entries = (k, v) :: eraseKey c.entries k := by
  unfold LruCache.put
  show (if c.cap < ((k, v) :: eraseKey c.entries k).length then _ else _) = _
  have := length_eraseKey_of_isSome c.entries k hmem
  rw [if_neg (by simp only [List.length_cons]; omega)]

@[simp] lemma put_cap (c : LruCache) (k : CacheKey) (v : GlyphDetails) :
    (c.put k v).cap = c.cap := rfl

lemma lookup_put_self (c : LruCache) (k : CacheKey) (v : GlyphDetails) (hcap : 1 ≤ c.cap) :
    (c.put k v).lookup k = some v := by
  unfold LruCache.put LruCache.lookup
  show lookupKey (if c.cap < ((k, v) :: eraseKey c.entries k).length then _ else _) k = some v
  split
  · rename_i hgt
    rcases hes : eraseKey c.entries k with _ | ⟨e, es⟩
    · rw [hes] at hgt; simp at hgt; omega
    · show lookupKey ((k, v) :: (e :: es).dropLast) k = some v
      simp [lookupKey]
  · simp [lookupKey]

lemma lookup_put_ne (c : LruCache) (k k' : CacheKey) (v : GlyphDetails)
    (hmem : (c.lookup k).isSome) (hlen : c.entries.length ≤ c.cap) (hne : k' ≠ k) :
    (c.put k v).lookup k' = c.lookup k' := by
  unfold LruCache.lookup
  rw [put_entries_eq c k v hmem hlen]
  have h1 : lookupKey ((k, v) :: eraseKey c.entries k) k' = lookupKey (eraseKey c.entries k) k' := by
    simp only [lookupKey]
    rw [if_neg (fun hh => hne hh.symm)]
  rw [h1, lookupKey_eraseKey_ne _ _ _ hne]

lemma put_length (c : LruCache) (k : CacheKey) (v : GlyphDetails)
    (hmem : (c.lookup k).isSome) (hlen : c.entries.length ≤ c.cap) :
    (c.put k v).entries.length = c.entries.length := by
  rw [put_entries_eq c k v hmem hlen]
  simp only [List.length_cons]
  exact length_eraseKey_of_isSome c.entries k hmem

lemma put_nodup (c : LruCache) (k : CacheKey) (v : GlyphDetails)
    (hmem : (c.lookup k).isSome) (hlen : c.entries.length ≤ c.cap)
    (hnd : (c.entries.map Prod.fst).Nodup) :
    ((c.put k v).entries.map Prod.fst).Nodup := by
  rw [put_entries_eq c k v hmem hlen]
  simp only [List.map_cons, List.nodup_cons]
  refine ⟨not_mem_keys_eraseKey c.entries k hnd, ?_⟩
  exact List.Nodup.sublist ((eraseKey_sublist c.entries k).map Prod.fst) hnd

lemma lookup_put_isSome (c : LruCache) (k k' : CacheKey) (v : GlyphDetails)
    (hmem : (c.lookup k).isSome) (hlen : c.entries.length ≤ c.cap) (hcap : 1 ≤ c.cap)
    (hs : (c.lookup k').isSome) :
    ((c.put k v).lookup k').isSome := by
  by_cases hk : k' = k
  · subst hk
    rw [lookup_put_self c k' v hcap]
    rfl
  · rw [lookup_put_ne c k k' v hmem hlen hk]
    exact hs

end RT

namespace RT

lemma growLoop_spec (rasterize : Char → Nat → Nat × Nat) :
    ∀ (items : List (CacheKey × GlyphDetails)) (p : Packer) (cache : LruCache)
      (p' : Packer) (cache' : LruCache),
    growLoop rasterize items p cache = some (p', cache') →
    (items.map Prod.fst).Nodup →
    (cache.entries.map Prod.fst).Nodup →
    cache.entries.length ≤ cache.cap →
    1 ≤ cache.cap →
    (∀ k, k ∈ items.map Prod.fst → (cache.lookup k).isSome) →
    (∀ k d, cache.lookup k = some d →
      k ∈ items.map Prod.fst ∨ (d.inBounds p.size ∧ p.placed d)) →
    (∀ k1 k2 d1 d2, k1 ≠ k2 → k1 ∉ items.map Prod.fst → k2 ∉ items.map Prod.fst →
      cache.lookup k1 = some d1 → cache.lookup k2 = some d2 → ¬ d1.overlaps d2) →
    p'.size = p.size ∧
    cache'.cap = cache.cap ∧
    (∀ k, (cache.lookup k).isSome → (cache'.lookup k).isSome) ∧
    (∀ k d, cache'.lookup k = some d → d.inBounds p'.size ∧ p'.placed d) ∧
    (∀ k1 k2 d1 d2, k1 ≠ k2 → cache'.lookup k1 = some d1 → cache'.lookup k2 = some d2 →
      ¬ d1.overlaps d2)
  | [], p, cache, p', cache' => by
    intro hgl hitems hnd hlen hcap hpres hproc hdisj
    simp only [growLoop, Option.some.injEq, Prod.mk.injEq] at hgl
    obtain ⟨hp, hc⟩ := hgl
    subst hp; subst hc
    refine ⟨rfl, rfl, fun k hs => hs, ?_, ?_⟩
    · intro k d hk
      rcases hproc k d hk with hmem | hgood
      · simp at hmem
      · exact hgood
    · intro k1 k2 d1 d2 hne h1 h2
      exact hdisj k1 k2 d1 d2 hne (by simp) (by simp) h1 h2
  | (k0, d0) :: rest, p, cache, p', cache' => by
    intro hgl hitems hnd hlen hcap hpres hproc hdisj
    simp only [growLoop] at hgl
    rcases hal : p.allocate (rasterize k0.character k0.font_size).1 (rasterize k0.character k0.font_size).2 with _ | ⟨r, p1⟩
    · rw [hal] at hgl; exact Option.noConfusion hgl
    · rw [hal] at hgl
      obtain ⟨hsz, hib, hpl, hmono⟩ := allocate_spec p _ _ r p1 hal
      simp only [List.map_cons, List.nodup_cons] at hitems
      obtain ⟨hk0rest, hrestnd⟩ := hitems
      have hmem0 : (cache.lookup k0).isSome := hpres k0 (by simp)
      have ihres := growLoop_spec rasterize rest p1 (cache.put k0 r) p' cache' hgl
        hrestnd
        (put_nodup cache k0 r hmem0 hlen hnd)
        (by rw [put_length cache k0 r hmem0 hlen, put_cap]; exact hlen)
        (by rw [put_cap]; exact hcap)
        (by
          intro k hk
          have hkne : k ≠ k0 := fun hh => hk0rest (hh ▸ hk)
          rw [lookup_put_ne cache k0 k r hmem0 hlen hkne]
          exact hpres k (by simp [hk]))
        (by
          intro k d hk
          by_cases hkk : k = k0
          · subst hkk
            rw [lookup_put_self cache k r hcap] at hk
            right
            obtain rfl : r = d := Option.some.inj hk
            rw [hsz]
            exact ⟨hib, hpl⟩
          · rw [lookup_put_ne cache k0 k r hmem0 hlen hkk] at hk
            rcases hproc k d hk with hmem | hgood
            · simp only [List.map_cons, List.mem_cons] at hmem
              rcases hmem with hmem | hmem
              · exact absurd hmem hkk
              · exact Or.inl hmem
            · right
              rw [hsz]
              exact ⟨hgood.1, (hmono d hgood.2).1⟩)
        (by
          intro k1 k2 d1 d2 hne hn1 hn2 h1 h2
          by_cases hkk1 : k1 = k0
          · subst hkk1
            rw [lookup_put_self cache k1 r hcap] at h1
            obtain rfl : r = d1 := Option.some.inj h1
            have hkk2 : k2 ≠ k1 := fun hh => hne hh.symm
            rw [lookup_put_ne cache k1 k2 r hmem0 hlen hkk2] at h2
            rcases hproc k2 d2 h2 with hmem | hgood
            · simp only [List.map_cons, List.mem_cons] at hmem
              rcases hmem with hmem | hmem
              · exact absurd hmem hkk2
              · exact absurd hmem hn2
            · intro hov
              exact (hmono d2 hgood.2).2.2 hov
          · by_cases hkk2 : k2 = k0
            · subst hkk2
              rw [lookup_put_self cache k2 r hcap] at h2
              obtain rfl : r = d2 := Option.some.inj h2
              rw [lookup_put_ne cache k2 k1 r hmem0 hlen hkk1] at h1
              rcases hproc k1 d1 h1 with hmem | hmem
              · simp only [List.map_cons, List.mem_cons] at hmem
                rcases hmem with hmem | hmem
                · exact absurd hmem hkk1
                · exact absurd hmem hn1
              · intro hov
                exact (hmono d1 hmem.2).2.1 hov
            · rw [lookup_put_ne cache k0 k1 r hmem0 hlen hkk1] at h1
              rw [lookup_put_ne cache k0 k2 r hmem0 hlen hkk2] at h2
              exact hdisj k1 k2 d1 d2 hne
                (by simp only [List.map_cons, List.mem_cons]; push_neg; exact ⟨hkk1, hn1⟩)
                (by simp only [List.map_cons, List.mem_cons]; push_neg; exact ⟨hkk2, hn2⟩)
                h1 h2)
      obtain ⟨i1, i2, i3, i4, i5⟩ := ihres
      refine ⟨by rw [i1, hsz], by rw [i2, put_cap], ?_, i4, i5⟩
      intro k hs
      exact i3 k (lookup_put_isSome cache k0 k r hmem0 hlen hcap hs)

end RT

namespace RT

/-- C2: when grow() completes (a failed re-pack allocation panics in the
source instead of completing), the surface size doubles, every (character,
size) key that was cached before the growth is still in the cache with a
rectangle lying entirely within the doubled surface bounds, and no two
rectangles stored in the cache overlap. -/
theorem atlas_grow_preserves_cache (rasterize : Char → Nat → Nat × Nat) (atlas : InnerAtlas)
    (hnodup : (atlas.glyph_cache.entries.map Prod.fst).Nodup)
    (hlen : atlas.glyph_cache.entries.length ≤ atlas.glyph_cache.cap)
    (hcap : 1 ≤ atlas.glyph_cache.cap)
    (hsome : (atlas.grow rasterize).isSome) :
    ((atlas.grow rasterize).getD atlas).size = atlas.size * 2 ∧
    (∀ k, (atlas.glyph_cache.lookup k).isSome →
      ∃ d, ((atlas.grow rasterize).getD atlas).glyph_cache.lookup k = some d ∧
        d.inBounds ((atlas.grow rasterize).getD atlas).size) ∧
    (∀ k1 k2 d1 d2, k1 ≠ k2 →
      ((atlas.grow rasterize).getD atlas).glyph_cache.lookup k1 = some d1 →
      ((atlas.grow rasterize).getD atlas).glyph_cache.lookup k2 = some d2 →
      ¬ d1.overlaps d2) := by
  unfold InnerAtlas.grow at hsome ⊢
  rcases hgl : growLoop rasterize atlas.glyph_cache.entries (Packer.fresh (atlas.size * 2)) atlas.glyph_cache with _ | ⟨p', cache'⟩
  · rw [hgl] at hsome; simp at hsome
  · rw [hgl] at hsome
    obtain ⟨g1, g2, g3, g4, g5⟩ := growLoop_spec rasterize atlas.glyph_cache.entries
      (Packer.fresh (atlas.size * 2)) atlas.glyph_cache p' cache' hgl hnodup hnodup hlen hcap
      (fun k hk => lookupKey_isSome_of_mem_keys _ _ hk)
      (fun k d hk => Or.inl (mem_keys_of_lookupKey_isSome _ _ (by
        show (lookupKey atlas.glyph_cache.entries k).isSome
        rw [show lookupKey atlas.glyph_cache.entries k = atlas.glyph_cache.lookup k from rfl, hk]; rfl)))
      (fun k1 k2 d1 d2 hne hn1 hn2 h1 h2 => absurd (mem_keys_of_lookupKey_isSome _ _ (by
        show (lookupKey atlas.glyph_cache.entries k1).isSome
        rw [show lookupKey atlas.glyph_cache.entries k1 = atlas.glyph_cache.lookup k1 from rfl, h1]; rfl)) hn1)
    refine ⟨rfl, ?_, ?_⟩
    · intro k hs
      have hs' := g3 k hs
      rcases hlookup : cache'.lookup k with _ | d
      · rw [hlookup] at hs'; exact absurd hs' (by simp)
      · refine ⟨d, hlookup, ?_⟩
        have hbd := (g4 k d hlookup).1
        rw [g1] at hbd
        exact hbd
    · intro k1 k2 d1 d2 hne h1 h2
      exact g5 k1 k2 d1 d2 hne h1 h2

end RT

namespace RT

lemma mem_of_lookupKey : ∀ (l : List (CacheKey × GlyphDetails)) (k : CacheKey) (v : GlyphDetails),
    lookupKey l k = some v → (k, v) ∈ l
  | [], k, v, h => by simp [lookupKey] at h
  | e :: rest, k, v, h => by
    by_cases h1 : e.1 = k
    · simp only [lookupKey, if_pos h1, Option.some.injEq] at h
      have hkv : (k, v) = e := by rw [← h1, ← h]
      rw [hkv]
      exact List.mem_cons_self e rest
    · simp only [lookupKey, if_neg h1] at h
      exact List.mem_cons_of_mem e (mem_of_lookupKey rest k v h)

lemma growLoop_cap (rasterize : Char → Nat → Nat × Nat) :
    ∀ (items : List (CacheKey × GlyphDetails)) (p : Packer) (cache : LruCache)
      (p' : Packer) (cache' : LruCache),
    growLoop rasterize items p cache = some (p', cache') → cache'.cap = cache.cap
  | [], p, cache, p', cache' => by
    intro h
    simp only [growLoop, Option.some.injEq, Prod.mk.injEq] at h
    rw [← h.2]
  | (k0, d0) :: rest, p, cache, p', cache' => by
    intro h
    simp only [growLoop] at h
    rcases hal : p.allocate (rasterize k0.character k0.font_size).1 (rasterize k0.character k0.font_size).2 with _ | ⟨r, p1⟩
    · rw [hal] at h; exact Option.noConfusion h
    · rw [hal] at h
      rw [growLoop_cap rasterize rest p1 (cache.put k0 r) p' cache' h, put_cap]

lemma grow_cap (rasterize : Char → Nat → Nat × Nat) (atlas atlas' : InnerAtlas)
    (h : atlas.grow rasterize = some atlas') :
    atlas'.glyph_cache.cap = atlas.glyph_cache.cap := by
  unfold InnerAtlas.grow at h
  rcases hgl : growLoop rasterize atlas.glyph_cache.entries (Packer.fresh (atlas.size * 2)) atlas.glyph_cache with _ | ⟨p', cache'⟩
  · rw [hgl] at h; exact Option.noConfusion h
  · rw [hgl] at h
    obtain rfl : (⟨p', atlas.size * 2, cache'⟩ : InnerAtlas) = atlas' := Option.some.inj h
    exact growLoop_cap rasterize _ _ _ _ _ hgl

lemma upload_cap (rasterize : Char → Nat → Nat × Nat) :
    ∀ (fuel : Nat) (atlas : InnerAtlas) (w h : Nat) (xy : Nat × Nat) (atlas' : InnerAtlas),
    upload_glyph_to_atlas rasterize fuel atlas w h = some (xy, atlas') →
    atlas'.glyph_cache.cap = atlas.glyph_cache.cap
  | fuel, atlas, w, h, xy, atlas' => by
    intro hu
    unfold upload_glyph_to_atlas at hu
    rcases hal : atlas.packer.allocate w h with _ | ⟨r, p1⟩
    · rw [hal] at hu
      match fuel, hu with
      | 0, hu => exact Option.noConfusion hu
      | fuel' + 1, hu => ?_
      rcases hg : atlas.grow rasterize with _ | atlas1
      · rw [hg] at hu; exact Option.noConfusion hu
      · rw [hg] at hu
        rw [upload_cap rasterize fuel' atlas1 w h xy atlas' hu, grow_cap rasterize atlas atlas1 hg]
    · rw [hal] at hu
      simp only [Option.some.injEq, Prod.mk.injEq] at hu
      rw [← hu.2]

end RT

namespace RT

/-- C9: get_or_create_glyph returns none exactly when the rasterizer yields a
bitmap of zero width or zero height; in that case the atlas, cache included,
is unchanged (the miss is not cached); in every other case a rectangle is
returned and the cache holds exactly that rectangle under the key (stored on
a miss, refreshed on a hit). The cache hypothesis is the reachability
invariant that cached keys rasterize to nonzero bitmaps, and the fuel
hypothesis states that the grow-and-retry loop terminates for this glyph,
which the source assumes (it retries without bound and panics when re-packing
fails). -/
theorem get_or_create_empty_iff (rasterize : Char → Nat → Nat × Nat) (atlas : InnerAtlas)
    (ch : Char) (fs : Nat) (fuel : Nat)
    (hcap : 1 ≤ atlas.glyph_cache.cap)
    (hcache : ∀ e ∈ atlas.glyph_cache.entries,
      (rasterize e.1.character e.1.font_size).1 ≠ 0 ∧ (rasterize e.1.character e.1.font_size).2 ≠ 0)
    (hfuel : (rasterize ch fs).1 ≠ 0 → (rasterize ch fs).2 ≠ 0 →
      (upload_glyph_to_atlas rasterize fuel atlas (rasterize ch fs).1 (rasterize ch fs).2).isSome) :
    ((atlas.get_or_create_glyph rasterize ch fs fuel).1 = none ↔
      (rasterize ch fs).1 = 0 ∨ (rasterize ch fs).2 = 0) ∧
    ((rasterize ch fs).1 = 0 ∨ (rasterize ch fs).2 = 0 →
      (atlas.get_or_create_glyph rasterize ch fs fuel).2 = atlas) ∧
    ((atlas.get_or_create_glyph rasterize ch fs fuel).2.glyph_cache.lookup ⟨ch, fs⟩ =
      (atlas.get_or_create_glyph rasterize ch fs fuel).1) := by
  unfold InnerAtlas.get_or_create_glyph LruCache.get
  rcases hlk : lookupKey atlas.glyph_cache.entries ⟨ch, fs⟩ with _ | v
  · by_cases hz : (rasterize ch fs).1 = 0 ∨ (rasterize ch fs).2 = 0
    · rw [if_pos hz]
      exact ⟨by simp [hz], fun _ => rfl, by rw [show atlas.glyph_cache.lookup ⟨ch, fs⟩ = lookupKey atlas.glyph_cache.entries ⟨ch, fs⟩ from rfl, hlk]⟩
    · rw [if_neg hz]
      push_neg at hz
      have hupl := hfuel hz.1 hz.2
      rcases hu : upload_glyph_to_atlas rasterize fuel atlas (rasterize ch fs).1 (rasterize ch fs).2 with _ | ⟨xy, atlas'⟩
      · rw [hu] at hupl; exact absurd hupl (by simp)
      · have hcap' : 1 ≤ atlas'.glyph_cache.cap := by
          rw [upload_cap rasterize fuel atlas (rasterize ch fs).1 (rasterize ch fs).2 xy atlas' hu]
          exact hcap
        refine ⟨by simp [hz.1, hz.2], fun hcontra => absurd hcontra (by simp [hz.1, hz.2]), ?_⟩
        exact lookup_put_self atlas'.glyph_cache ⟨ch, fs⟩ _ hcap'
  · have hk : ((⟨ch, fs⟩ : CacheKey), v) ∈ atlas.glyph_cache.entries :=
      mem_of_lookupKey _ _ _ hlk
    have hnz := hcache _ hk
    refine ⟨by simp [hnz.1, hnz.2], fun hcontra => absurd hcontra (by simp [hnz.1, hnz.2]), ?_⟩
    show lookupKey ((⟨ch, fs⟩, v) :: eraseKey atlas.glyph_cache.entries ⟨ch, fs⟩) ⟨ch, fs⟩ = some v
    simp [lookupKey]

end RT

namespace RT

/-- C2 witness: growing a 16-pixel atlas whose cache holds two glyphs that
rasterize to 3x4 bitmaps completes and doubles the surface size. -/
theorem atlas_grow_preserves_cache_witness :
    (((⟨Packer.fresh 16, 16, ⟨10, [(⟨Char.ofNat 97, 12⟩, ⟨0, 0, 3, 4⟩), (⟨Char.ofNat 98, 12⟩, ⟨3, 0, 3, 4⟩)]⟩⟩ : InnerAtlas).glyph_cache.entries.map Prod.fst).Nodup ∧
     (⟨Packer.fresh 16, 16, ⟨10, [(⟨Char.ofNat 97, 12⟩, ⟨0, 0, 3, 4⟩), (⟨Char.ofNat 98, 12⟩, ⟨3, 0, 3, 4⟩)]⟩⟩ : InnerAtlas).glyph_cache.entries.length ≤
       (⟨Packer.fresh 16, 16, ⟨10, [(⟨Char.ofNat 97, 12⟩, ⟨0, 0, 3, 4⟩), (⟨Char.ofNat 98, 12⟩, ⟨3, 0, 3, 4⟩)]⟩⟩ : InnerAtlas).glyph_cache.cap ∧
     ((⟨Packer.fresh 16, 16, ⟨10, [(⟨Char.ofNat 97, 12⟩, ⟨0, 0, 3, 4⟩), (⟨Char.ofNat 98, 12⟩, ⟨3, 0, 3, 4⟩)]⟩⟩ : InnerAtlas).grow (fun _ _ => (3, 4))).isSome) ∧
    (((⟨Packer.fresh 16, 16, ⟨10, [(⟨Char.ofNat 97, 12⟩, ⟨0, 0, 3, 4⟩), (⟨Char.ofNat 98, 12⟩, ⟨3, 0, 3, 4⟩)]⟩⟩ : InnerAtlas).grow (fun _ _ => (3, 4))).getD
        (⟨Packer.fresh 16, 16, ⟨10, [(⟨Char.ofNat 97, 12⟩, ⟨0, 0, 3, 4⟩), (⟨Char.ofNat 98, 12⟩, ⟨3, 0, 3, 4⟩)]⟩⟩ : InnerAtlas)).size =
      (⟨Packer.fresh 16, 16, ⟨10, [(⟨Char.ofNat 97, 12⟩, ⟨0, 0, 3, 4⟩), (⟨Char.ofNat 98, 12⟩, ⟨3, 0, 3, 4⟩)]⟩⟩ : InnerAtlas).size * 2 :=
  ⟨by decide,
   (atlas_grow_preserves_cache (fun _ _ => (3, 4))
     (⟨Packer.fresh 16, 16, ⟨10, [(⟨Char.ofNat 97, 12⟩, ⟨0, 0, 3, 4⟩), (⟨Char.ofNat 98, 12⟩, ⟨3, 0, 3, 4⟩)]⟩⟩ : InnerAtlas)
     (by decide) (by decide) (by decide) (by decide)).1⟩

/-- C9 witness: looking up an uncached glyph that rasterizes to a 2x3 bitmap
on a fresh atlas returns a rectangle and stores it; the none-iff-zero
characterization holds at this input. -/
theorem get_or_create_empty_iff_witness :
    1 ≤ InnerAtlas.new.glyph_cache.cap ∧
    ((InnerAtlas.new.get_or_create_glyph (fun _ _ => (2, 3)) (Char.ofNat 65) 16 0).1 = none ↔
      ((fun (_ : Char) (_ : Nat) => ((2 : Nat), (3 : Nat))) (Char.ofNat 65) 16).1 = 0 ∨
      ((fun (_ : Char) (_ : Nat) => ((2 : Nat), (3 : Nat))) (Char.ofNat 65) 16).2 = 0) ∧
    (InnerAtlas.new.get_or_create_glyph (fun _ _ => (2, 3)) (Char.ofNat 65) 16 0).2.glyph_cache.lookup ⟨Char.ofNat 65, 16⟩ =
      (InnerAtlas.new.get_or_create_glyph (fun _ _ => (2, 3)) (Char.ofNat 65) 16 0).1 :=
  ⟨by decide,
   (get_or_create_empty_iff (fun _ _ => (2, 3)) InnerAtlas.new (Char.ofNat 65) 16 0
     (by decide) (by decide) (by decide)).1,
   (get_or_create_empty_iff (fun _ _ => (2, 3)) InnerAtlas.new (Char.ofNat 65) 16 0
     (by decide) (by decide) (by decide)).2.2⟩

end RT
